import Mathlib

/-!
Verification of the BlockProject3D `tools.os` module loader
(`src/core/src/module/...`), shallowly embedded in Lean 4.

Conventions of the embedding:
* Rust `String`/`&str` become Lean `String`; byte buffers become `List Nat`
  (each element one byte).
* `HashMap` becomes an association list with first-match lookup; `insert`
  is modelled by consing the new binding in front (so the latest insert
  shadows older ones, matching `HashMap::insert` overwrite semantics) and
  `remove` filters out every binding of the key.
* `HashSet<&str>` built by `collect` becomes `List.dedup` of the collected
  list: membership and cardinality — the only operations the source uses —
  agree with set semantics.
* fallible Rust functions returning `Result` become `Except Error α`;
  functions taking `&mut` state additionally return the (possibly updated)
  state, and early `return Err(..)` hands back the untouched state exactly
  where the source leaves it untouched.
* `std::io::Error` payloads carry no information relevant to the claims and
  are dropped from the `Io` constructor.
-/

namespace BP3D

/-- From src/core/src/module/error.rs: an incompatible RUSTC version report. -/
structure IncompatibleRustc where
  expected : String
  actual : String
deriving DecidableEq

/-- From src/core/src/module/error.rs: an incompatible dependency report.
Field order follows the source struct. -/
structure IncompatibleDependency where
  name : String
  actual_version : String
  expected_version : String
deriving DecidableEq

/-- From src/core/src/module/error.rs: the module-subsystem error type.
`MissingModuleInitForRust` is used by `loader/util.rs` (`module_open`,
`module_close`); the variant list in the shipped `error.rs` predates it, so it
is included here as the loader code requires. -/
inductive Error where
  | NotFound (name : String)
  | Null
  | MissingDepsForRust
  | MissingFeaturesForRust
  | MissingVersionForRust
  | MissingModuleName
  | MissingModuleVersion
  | InvalidUtf8
  | RustcVersionMismatch (i : IncompatibleRustc)
  | InvalidDepFormat
  | IncompatibleDep (i : IncompatibleDependency)
  | IncompatibleFeatureSet (name : String)
  | Io
  | MissingMetadata
  | InvalidMetadata
  | MissingModuleInitForRust
deriving DecidableEq

/-- `Modelled from the spec:` the toolchain fingerprint `RUSTC_VERSION` is an
environment constant generated at build time (`env!("RUSTC_VERSION")`), missing
from `src/`. Its concrete value is immaterial to every claim; only equality
with itself and inequality with other strings matter. -/
def RUSTC_VERSION : String := "rustc 1.85.0"

/-- Metadata map (src/core/src/module/metadata.rs: `type Metadata = HashMap<String, Value>`),
as an association list; a `Value` is just its underlying string. -/
abbrev Metadata := List (String × String)


/-- Rust `str::split` with a single-character pattern, at the char level
(every separator in the source's metadata protocol is a single character).
Matches Rust semantics: splitting the empty string yields one empty piece. -/
def split_chars (sep : Char) : List Char → List (List Char)
  | [] => [[]]
  | x :: r =>
    if x = sep then [] :: split_chars sep r
    else
      match split_chars sep r with
      | [] => [[x]]
      | l :: ls => (x :: l) :: ls

/-- `s.split(sep).collect()`, as Lean strings. Implemented on the character
list so that it evaluates inside the kernel. -/
def rust_split (sep : Char) (s : String) : List String :=
  (split_chars sep s.data).map (fun l => ⟨l⟩)

/-- Rust `str::replace` for a single-character pattern and replacement. -/
def rust_replace (s : String) (c r : Char) : String :=
  ⟨s.data.map (fun x => if x = c then r else x)⟩

/-- Rust `str::starts_with`. -/
def rust_startsWith (s p : String) : Bool := p.data.isPrefixOf s.data

/-- Rust `str::to_uppercase`, ASCII range (module names are identifiers). -/
def rust_to_upper (s : String) : String := ⟨s.data.map Char.toUpper⟩

namespace Value

/-- From metadata.rs `Value::as_list`: `None` on the empty string (the
special-cased "empty list"), otherwise the comma-split pieces. -/
def as_list (v : String) : Option (List String) :=
  if v.isEmpty then none else some (rust_split ',' v)

/-- From metadata.rs `Value::parse_key_value_pairs`, the per-item step: split
on `=`; the first piece (hyphens normalised to underscores) is the name, the
second the version; an item with no `=` is `InvalidDepFormat`. -/
def parse_item (item : String) : Except Error (String × String) :=
  match rust_split '=' item with
  | [] => .error .InvalidDepFormat
  | [_] => .error .InvalidDepFormat
  | n :: v :: _ => .ok (rust_replace n '-' '_', v)

/-- From metadata.rs `Value::parse_key_value_pairs`: `None` when the value is
empty, otherwise the item-wise parse results (the Rust iterator yields one
`Result` per item). -/
def parse_key_value_pairs (v : String) : Option (List (Except Error (String × String))) :=
  (as_list v).map (List.map parse_item)

end Value

/-- From src/core/src/module/loader/util.rs: a declared dependency constraint. -/
structure Dependency where
  version : String
  features : List String
  negative_features : List String
deriving DecidableEq

/-- From loader/util.rs: the dependency/feature negotiation state. The unused
`dummy` field (an always-empty map substituted for missing lookups) is modelled
by `getD []` at its use site. -/
structure DepsMap where
  deps_by_module : List (String × List (String × Dependency))
  module_by_dep : List (String × List String)
  module_version : List (String × String)
  master : List (String × Dependency)
deriving DecidableEq

namespace DepsMap

/-- From loader/util.rs `DepsMap::new`. -/
def new : DepsMap := ⟨[], [], [], []⟩

/-- From loader/util.rs `DepsMap::add_dep`. -/
def add_dep (m : DepsMap) (name : String) (dep : Dependency) : DepsMap :=
  { m with master := (name, dep) :: m.master }

/-- From loader/util.rs `DepsMap::get_module_by_dep`: the dependency tables of
every already-accepted module that declares `name`; a missing
`deps_by_module` entry falls back to the empty `dummy` table. -/
def get_module_by_dep (m : DepsMap) (name : String) :
    Option (List (List (String × Dependency))) :=
  (m.module_by_dep.lookup name).map
    (fun l => l.map (fun v => (m.deps_by_module.lookup v).getD []))

/-- `module_by_dep.entry(k).or_default().push(v)` from `insert_module`. -/
def push_module_by_dep (map : List (String × List String)) (k v : String) :
    List (String × List String) :=
  (k, (map.lookup k).getD [] ++ [v]) :: map

/-- From loader/util.rs `DepsMap::insert_module`: commit an accepted module.
The fallible part (parsing `deps`) happens before any mutation, so an error
hands back the original map — exactly as the `?` placement in the source. -/
def insert_module (m : DepsMap) (name version deps features : String) :
    Except Error DepsMap :=
  let itemsE : Except Error (List (String × String)) :=
    match Value.parse_key_value_pairs deps with
    | none => .ok []
    | some items => items.mapM (fun x => x)
  match itemsE with
  | .error e => .error e
  | .ok deps3 =>
    let features1 := (Value.as_list features).getD []
    let md := deps3.foldl (fun acc p => push_module_by_dep acc p.1 name) m.module_by_dep
    let deps2 := deps3.foldl
      (fun acc p =>
        (p.1, Dependency.mk p.2 (features1.filter (fun v => rust_startsWith v p.1)) []) :: acc)
      ([] : List (String × Dependency))
    .ok { m with
          module_by_dep := md
          deps_by_module := (name, deps2) :: m.deps_by_module
          module_version := (name, version) :: m.module_version }

end DepsMap

/-- The qualified feature set a candidate declares for dependency `name`:
`features.filter(|v| v.starts_with(&name)).collect::<HashSet<_>>()` from
`check_deps`, with the hash set modelled by `dedup`. -/
def qualified_set (feats : List String) (name : String) : List String :=
  (feats.filter (fun v => rust_startsWith v name)).dedup

/-- The `for feature in dep.features` loop of `check_deps`: errors at the
first non-wildcard master feature missing from the candidate set, and returns
the final `flag` (`false` iff a `"*"` wildcard stopped the walk). -/
def feature_cover_loop (fset : List String) (name : String) :
    List String → Except Error Bool
  | [] => .ok true
  | f :: rest =>
    if f = "*" then .ok false
    else if fset.contains f then feature_cover_loop fset name rest
    else .error (.IncompatibleFeatureSet name)

/-- The feature-set portion of `check_deps` for one dependency entry:
negative-feature exclusion, then wildcard/coverage walk, then the symmetric
cardinality check; with an empty `FEATURES` value (`as_list` is `None`) the
entry fails iff the master declares any feature. -/
def check_dep_features (name : String) (dep : Dependency) (features : String) :
    Except Error Unit :=
  match Value.as_list features with
  | some feats =>
    let fset := qualified_set feats name
    if dep.negative_features.any (fun f => fset.contains f) then
      .error (.IncompatibleFeatureSet name)
    else
      match feature_cover_loop fset name dep.features with
      | .error e => .error e
      | .ok flag =>
        if flag ∧ fset.length ≠ dep.features.length then
          .error (.IncompatibleFeatureSet name)
        else .ok ()
  | none =>
    if dep.features ≠ [] then .error (.IncompatibleFeatureSet name) else .ok ()

/-- One iteration of the `check_deps` loop: a declared `(name, version)` pair
against the constraint table `deps2`; unknown names pass, a version difference
is `IncompatibleDep` (string identity), then the feature checks. -/
def check_dep_entry (deps2 : List (String × Dependency)) (features : String)
    (name version : String) : Except Error Unit :=
  match deps2.lookup name with
  | none => .ok ()
  | some dep =>
    if version ≠ dep.version then
      .error (.IncompatibleDep ⟨name, version, dep.version⟩)
    else check_dep_features name dep features

/-- The `for res in deps` loop of `check_deps` over already-split items. -/
def check_deps_items (features : String) (deps2 : List (String × Dependency)) :
    List (Except Error (String × String)) → Except Error Unit
  | [] => .ok ()
  | item :: rest => do
    let p ← item
    check_dep_entry deps2 features p.1 p.2
    check_deps_items features deps2 rest

/-- From loader/util.rs `check_deps`: validate a candidate's declared `DEPS`
value and `FEATURES` value against a constraint table. -/
def check_deps (deps features : String) (deps2 : List (String × Dependency)) :
    Except Error Unit :=
  match Value.parse_key_value_pairs deps with
  | none => .ok ()
  | some items => check_deps_items features deps2 items

/-- The `for deps2 in modules` loop of `check_metadata` (reverse-dependency
check): run `check_deps` against each prior module's table. -/
def check_deps_tables (deps features : String) :
    List (List (String × Dependency)) → Except Error Unit
  | [] => .ok ()
  | t :: rest => do
    check_deps deps features t
    check_deps_tables deps features rest

/-- The `if let Some(modules) = deps3.get_module_by_dep(..)` step of
`check_metadata`. -/
def check_rev_deps (deps features : String) (deps3 : DepsMap) (module_name : String) :
    Except Error Unit :=
  match deps3.get_module_by_dep module_name with
  | none => .ok ()
  | some tables => check_deps_tables deps features tables

/-- The `if let Some(deps1) = deps.parse_key_value_pairs()` loop of
`check_metadata` (direct module-on-module check). Note the source constructs
the `IncompatibleDep` error with `actual_version: module_version.as_str()` —
the candidate's own `VERSION` — not the version the candidate declared for the
dependency (which its own `trace!` line prints as `actual_version`). The
`unwrap` on `module_version` is modelled by `getD ""` (the entry always exists:
`deps_by_module` and `module_version` are only ever extended together). -/
def check_direct_deps (deps features module_version : String) (deps3 : DepsMap) :
    List (Except Error (String × String)) → Except Error Unit
  | [] => .ok ()
  | item :: rest => do
    let p ← item
    match deps3.deps_by_module.lookup p.1 with
    | none => check_direct_deps deps features module_version deps3 rest
    | some deps2 =>
      let version := (deps3.module_version.lookup p.1).getD ""
      if version ≠ p.2 then
        .error (.IncompatibleDep ⟨p.1, module_version, version⟩)
      else do
        check_deps deps features deps2
        check_direct_deps deps features module_version deps3 rest

/-- From loader/util.rs `check_metadata`: full negotiation of a candidate's
metadata against the `DepsMap`, committing the candidate on success. Returns
the result together with the map state the source's `&mut DepsMap` holds when
the function returns. -/
def check_metadata (metadata : Metadata) (deps3 : DepsMap) :
    Except Error Unit × DepsMap :=
  match metadata.lookup "TYPE" with
  | none => (.error .InvalidMetadata, deps3)
  | some ty =>
    if ty = "RUST" then
      match metadata.lookup "RUSTC" with
      | none => (.error .MissingVersionForRust, deps3)
      | some rustc_version =>
        match metadata.lookup "DEPS" with
        | none => (.error .MissingDepsForRust, deps3)
        | some deps =>
          match metadata.lookup "NAME" with
          | none => (.error .MissingModuleName, deps3)
          | some module_name =>
            -- the source reuses MissingModuleName for a missing VERSION key
            match metadata.lookup "VERSION" with
            | none => (.error .MissingModuleName, deps3)
            | some module_version =>
              match metadata.lookup "FEATURES" with
              | none => (.error .MissingFeaturesForRust, deps3)
              | some features =>
                if rustc_version ≠ RUSTC_VERSION then
                  (.error (.RustcVersionMismatch ⟨RUSTC_VERSION, rustc_version⟩), deps3)
                else
                  match check_deps deps features deps3.master with
                  | .error e => (.error e, deps3)
                  | .ok _ =>
                    match check_rev_deps deps features deps3 module_name with
                    | .error e => (.error e, deps3)
                    | .ok _ =>
                      match check_direct_deps deps features module_version deps3
                          ((Value.parse_key_value_pairs deps).getD []) with
                      | .error e => (.error e, deps3)
                      | .ok _ =>
                        match deps3.insert_module module_name module_version deps features with
                        | .error e => (.error e, deps3)
                        | .ok m => (.ok (), m)
    else (.ok (), deps3)

/-- From loader/core.rs `ModuleLoader::_add_public_dependency`, the part that
builds the `Dependency`: entries starting with `-` go verbatim into
`negative_features`; `"*"` is kept as the wildcard; anything else is qualified
by direct concatenation `name + s`. -/
def build_public_dependency (name version : String) (features : List String) :
    Dependency :=
  let acc := features.foldl
    (fun (acc : List String × List String) s =>
      if rust_startsWith s "-" then (acc.1 ++ [s], acc.2)
      else if s ≠ "*" then (acc.1, acc.2 ++ [name ++ s])
      else (acc.1, acc.2 ++ ["*"]))
    ([], [])
  ⟨version, acc.2, acc.1⟩

/-- From loader/core.rs `ModuleLoader::_add_public_dependency`: register a
master dependency under the hyphen-normalised name. -/
def add_public_dependency (m : DepsMap) (name version : String)
    (features : List String) : DepsMap :=
  m.add_dep (rust_replace name '-' '_') (build_public_dependency name version features)

end BP3D

namespace BP3D

/-! ## Byte-level metadata extraction (loader/util.rs `parse_metadata`, `load_metadata`) -/

/-- ASCII string to bytes, used to build concrete byte buffers. -/
def strBytes (s : String) : List Nat := s.toList.map Char.toNat

/-- `MOD_HEADER` from loader/util.rs: the embedded-descriptor magic. -/
def MOD_HEADER : List Nat := strBytes "BP3D_OS_MODULE|"

/-- UTF-8 continuation byte test. -/
def isCont (b : Nat) : Bool := 0x80 ≤ b && b ≤ 0xBF

/-- A UTF-8 decoder mirroring `std::str::from_utf8` validation (rejecting
overlong forms and surrogates); `none` models `Err(Utf8Error)`. -/
def utf8Decode : List Nat → Option (List Char)
  | [] => some []
  | b :: rest =>
    if b ≤ 0x7F then (utf8Decode rest).map (fun cs => Char.ofNat b :: cs)
    else if 0xC2 ≤ b && b ≤ 0xDF then
      match rest with
      | c1 :: r =>
        if isCont c1 then
          (utf8Decode r).map (fun cs => Char.ofNat ((b - 0xC0) * 0x40 + (c1 - 0x80)) :: cs)
        else none
      | [] => none
    else if 0xE0 ≤ b && b ≤ 0xEF then
      match rest with
      | c1 :: c2 :: r =>
        let lo1 : Nat := if b = 0xE0 then 0xA0 else 0x80
        let hi1 : Nat := if b = 0xED then 0x9F else 0xBF
        if (lo1 ≤ c1 && c1 ≤ hi1) && isCont c2 then
          (utf8Decode r).map (fun cs =>
            Char.ofNat ((b - 0xE0) * 0x1000 + (c1 - 0x80) * 0x40 + (c2 - 0x80)) :: cs)
        else none
      | _ => none
    else if 0xF0 ≤ b && b ≤ 0xF4 then
      match rest with
      | c1 :: c2 :: c3 :: r =>
        let lo1 : Nat := if b = 0xF0 then 0x90 else 0x80
        let hi1 : Nat := if b = 0xF4 then 0x8F else 0xBF
        if (lo1 ≤ c1 && c1 ≤ hi1) && (isCont c2 && isCont c3) then
          (utf8Decode r).map (fun cs =>
            Char.ofNat ((b - 0xF0) * 0x40000 + (c1 - 0x80) * 0x1000 +
              (c2 - 0x80) * 0x40 + (c3 - 0x80)) :: cs)
        else none
      | _ => none
    else none

/-- The `KEY=VALUE` loop of `parse_metadata`: each segment needs an `=`; the
key is everything before the first `=`, the value everything after it;
`map.insert` is modelled by consing (latest binding shadows). -/
def parse_meta_vars : List String → Metadata → Except Error Metadata
  | [], map => .ok map
  | var :: rest, map =>
    match rust_split '=' var with
    | [] => .error .InvalidMetadata
    | [_] => .error .InvalidMetadata
    | key :: v0 :: vs =>
      parse_meta_vars rest ((key, String.intercalate "=" (v0 :: vs)) :: map)

/-- From loader/util.rs `parse_metadata`: strip the trailing NUL, validate
UTF-8, split on `|`, discard the first piece (the magic), parse the rest. -/
def parse_metadata (bytes : List Nat) : Except Error Metadata :=
  let bytes := bytes.dropLast
  match utf8Decode bytes with
  | none => .error .InvalidUtf8
  | some cs =>
    let data : String := ⟨cs⟩
    parse_meta_vars ((rust_split '|' data).drop 1) []

/-- Fixed chunk size of `load_metadata`'s read buffer. -/
def BUF_SIZE : Nat := 8192

/-- Result of scanning one chunk: either the function returned (with the
parse result of an accepted candidate), or the partial accumulator `v` to
carry into the next chunk. -/
inductive ScanOut where
  | done (r : Except Error Metadata)
  | carry (v : List Nat)

/-- The inner `while let Some(pos) = slice.iter().position(|v| *v == b'B')`
loop of `load_metadata`: find the next `'B'`, accumulate up to the next NUL
(or the end of the slice if none), accept iff the accumulated run ends in NUL
and starts with the magic; otherwise discard and resume after the candidate,
or carry the partial accumulator to the next chunk. `lengthTR` computes the
same value as `length` (`List.lengthTR_eq_length`) while keeping kernel
evaluation shallow. The `fuel` argument only
serves structural termination (each iteration strictly shrinks the slice, so
`slice.length + 1` fuel is always enough — see `scan_chunk`); `fuel = 0` is
unreachable from `scan_chunk`. -/
def scan_slice : Nat → List Nat → List Nat → ScanOut
  | 0, _, v => .carry v
  | fuel + 1, slice, v =>
    match slice.findIdx? (fun b => b == 66) with
    | none => .carry v
    | some pos =>
      let inner := slice.drop pos
      let e := ((inner.findIdx? (fun b => b == 0)).getD (inner.lengthTR - 1))
      let v2 := v ++ inner.take (e + 1)
      if v2.getLast? = some 0 then
        if MOD_HEADER.isPrefixOf v2 then .done (parse_metadata v2)
        else scan_slice fuel (slice.drop (pos + e + 1)) []
      else .carry v2

/-- One chunk scan with sufficient fuel. -/
def scan_chunk (slice v : List Nat) : ScanOut :=
  scan_slice (slice.lengthTR + 1) slice v

/-- The `while file.read(&mut buffer)? > 0` loop of `load_metadata`. A read
copies the next `min BUF_SIZE remaining` bytes into the front of the buffer,
leaving any stale bytes of the previous chunk behind them — and the source
then scans `&buffer[..]`, the whole buffer, not only the bytes just read.
`fuel` again only serves structural termination (every iteration consumes at
least one byte of `remaining`). -/
def read_loop : Nat → List Nat → List Nat → List Nat → Except Error Metadata
  | 0, _, _, _ => .error .MissingMetadata
  | fuel + 1, remaining, buffer, v =>
    if remaining.isEmpty then .error .MissingMetadata
    else
      let n := min BUF_SIZE remaining.lengthTR
      let buffer2 := remaining.take n ++ buffer.drop n
      match scan_chunk buffer2 v with
      | .done r => r
      | .carry v2 => read_loop fuel (remaining.drop n) buffer2 v2

/-- From loader/util.rs `load_metadata`, over the opened file's byte contents:
stream in `BUF_SIZE` chunks (buffer initially zeroed), scanning each chunk for
an embedded descriptor. -/
def load_metadata (file : List Nat) : Except Error Metadata :=
  read_loop (file.lengthTR + 1) file (List.replicate BUF_SIZE 0) []

end BP3D

namespace BP3D

/-! ## Libraries, modules and hooks (library/*.rs, loader/util.rs) -/

/-- A library's symbol table, the observable interface of both `OsLibrary` and
`VirtualLibrary` (`load_symbol` is the single capability both expose):
`data_syms` resolves data symbols (the descriptor constants, giving the raw
bytes at the symbol's address), `fun_syms` tells which hook functions exist.
Invoking a resolved hook has no observable effect on loader state. -/
structure Library where
  data_syms : String → Option (List Nat)
  fun_syms : String → Bool

/-- `CString::new` rejects embedded NUL characters. -/
def has_nul (s : String) : Bool := s.data.contains (Char.ofNat 0)

/-- `Library::load_symbol::<extern fn>` (library/unix.rs, library/virtual.rs):
`Null` on embedded NUL, otherwise whether the hook exists (`None` = absent). -/
def load_symbol_fun (lib : Library) (name : String) : Except Error Bool :=
  if has_nul name then .error .Null else .ok (lib.fun_syms name)

/-- `Library::load_symbol::<*const c_char>` for data symbols. -/
def load_symbol_data (lib : Library) (name : String) : Except Error (Option (List Nat)) :=
  if has_nul name then .error .Null else .ok (lib.data_syms name)

/-- `CStr::from_ptr(..).to_bytes_with_nul`: the bytes up to and including the
first NUL (a missing NUL is undefined behaviour in the source; the total
fallback returns everything). -/
def cstr_with_nul (bytes : List Nat) : List Nat :=
  match bytes.findIdx? (fun b => b == 0) with
  | some i => bytes.take (i + 1)
  | none => bytes

/-- `Modelled from the spec:` the `Module` record that loader/core.rs
manipulates (`module.id`, `module.ref_count`) is missing from `src/` — the
`module.rs` present there is an older fieldless variant. Per the spec's data
model it owns a Library and its Metadata, carries the loader-assigned numeric
`id`, and a `ref_count` that "starts at 1 on first load". -/
structure ModuleRec where
  lib : Library
  metadata : Metadata
  id : Nat
  ref_count : Nat

/-- `Module::new` wraps a library and metadata; `ref_count` starts at 1. -/
def ModuleRec.new (lib : Library) (metadata : Metadata) : ModuleRec :=
  ⟨lib, metadata, 0, 1⟩

/-- `Module::get_metadata_key`. -/
def ModuleRec.get_metadata_key (m : ModuleRec) (key : String) : Option String :=
  m.metadata.lookup key

/-- From loader/util.rs `module_open`: for `RUST` modules resolve the optional
debug hook, then the mandatory init hook (`MissingModuleInitForRust` if
absent); for every module resolve the optional open hook. Hook invocation
itself is unobservable. -/
def module_open (name : String) (m : ModuleRec) : Except Error Unit := do
  let name := (m.get_metadata_key "NAME").getD name
  match m.get_metadata_key "TYPE" with
  | none => Except.error Error.InvalidMetadata
  | some ty =>
    if ty = "RUST" then do
      let _dbg ← load_symbol_fun m.lib ("bp3d_os_module_" ++ name ++ "_init_bp3d_debug")
      let init ← load_symbol_fun m.lib ("bp3d_os_module_" ++ name ++ "_init")
      if init then pure () else Except.error Error.MissingModuleInitForRust
    else pure ()
  let _main ← load_symbol_fun m.lib ("bp3d_os_module_" ++ name ++ "_open")
  pure ()

/-- From loader/util.rs `module_close`: mirror of `module_open`; the `TYPE`
lookup (and thus its `InvalidMetadata` error) only happens when `!builtin`,
because `&&` short-circuits in the source. -/
def module_close (name : String) (builtin : Bool) (m : ModuleRec) : Except Error Unit := do
  let name := (m.get_metadata_key "NAME").getD name
  let isRust ←
    if builtin then pure false
    else
      match m.get_metadata_key "TYPE" with
      | none => Except.error Error.InvalidMetadata
      | some ty => pure (ty == "RUST")
  if isRust then do
    let un ← load_symbol_fun m.lib ("bp3d_os_module_" ++ name ++ "_uninit")
    if un then pure () else Except.error Error.MissingModuleInitForRust
  else pure ()
  let _c ← load_symbol_fun m.lib ("bp3d_os_module_" ++ name ++ "_close")
  pure ()

/-- The ambient system: which files exist and their bytes, what `dlopen`
yields (`none` models an OS failure, surfaced as `Io`), and the
current-process handle `open_self` yields. -/
structure Env where
  fs : String → Bool
  file_bytes : String → List Nat
  os_open : String → Option Library
  self_lib : Option Library

/-- From loader/util.rs `load_lib`: extract metadata from the file bytes,
negotiate it (committing into the `DepsMap` on success), only then open the
OS library and run the open protocol. Errors after `check_metadata` leave the
map committed, exactly as `&mut DepsMap` does in the source. -/
def load_lib (env : Env) (deps3 : DepsMap) (name path : String) :
    Except Error ModuleRec × DepsMap :=
  match load_metadata (env.file_bytes path) with
  | .error e => (.error e, deps3)
  | .ok metadata =>
    match check_metadata metadata deps3 with
    | (.error e, d) => (.error e, d)
    | (.ok _, d) =>
      match env.os_open path with
      | none => (.error .Io, d)
      | some lib =>
        let module := ModuleRec.new lib metadata
        match module_open name module with
        | .error e => (.error e, d)
        | .ok _ => (.ok module, d)

/-- From loader/util.rs `load_by_symbol`: look for the descriptor constant
`BP3D_OS_MODULE_<NAME uppercased>`; its value points one guard byte before
the NUL-terminated descriptor. `NotFound` when the constant is absent. -/
def load_by_symbol (lib : Library) (name : String) (deps : DepsMap) :
    Except Error ModuleRec × DepsMap :=
  let mod_const_name := "BP3D_OS_MODULE_" ++ rust_to_upper name
  match load_symbol_data lib mod_const_name with
  | .error e => (.error e, deps)
  | .ok none => (.error (.NotFound name), deps)
  | .ok (some raw) =>
    let bytes := cstr_with_nul (raw.drop 1)
    match parse_metadata bytes with
    | .error e => (.error e, deps)
    | .ok metadata =>
      match check_metadata metadata deps with
      | (.error e, d) => (.error e, d)
      | (.ok _, d) =>
        let module := ModuleRec.new lib metadata
        match module_open name module with
        | .error e => (.error e, d)
        | .ok _ => (.ok module, d)

/-- `OS_EXT`, fixed here to the non-Apple unix value. -/
def OS_EXT : String := "so"

/-- From loader/core.rs: the loader state. `builtins` is the static table of
linked-in virtual libraries (name, symbol table). -/
structure ModuleLoader where
  paths : List String
  modules : List (Nat × ModuleRec)
  builtin_modules : List (Nat × ModuleRec)
  deps : DepsMap
  builtins : List (String × Library)
  module_name_to_id : List (String × Nat)
  last_module_id : Nat

namespace ModuleLoader

/-- `v.ref_count += 1` on the record stored under `id`. -/
def bump_ref (modules : List (Nat × ModuleRec)) (id : Nat) : List (Nat × ModuleRec) :=
  modules.map (fun p =>
    if p.1 = id then (p.1, { p.2 with ref_count := p.2.ref_count + 1 }) else p)

/-- `v.ref_count = rc` on the record stored under `id`. -/
def set_ref (modules : List (Nat × ModuleRec)) (id : Nat) (rc : Nat) :
    List (Nat × ModuleRec) :=
  modules.map (fun p => if p.1 = id then (p.1, { p.2 with ref_count := rc }) else p)

/-- `HashMap::remove` on a `Nat`-keyed association list. -/
def remove_id (modules : List (Nat × ModuleRec)) (id : Nat) : List (Nat × ModuleRec) :=
  modules.filter (fun p => p.1 != id)

/-- `HashMap::remove` on a name-keyed association list. -/
def remove_name (m : List (String × Nat)) (name : String) : List (String × Nat) :=
  m.filter (fun p => p.1 != name)

/-- Register a freshly loaded module: `_next_module_id`, set `module.id`,
extend the name index and the OS-module map (loader/core.rs `_load` /
`_load_self`). -/
def register_os_module (s : ModuleLoader) (name : String) (module : ModuleRec) :
    Nat × ModuleLoader :=
  let id := s.last_module_id
  (id, { s with
         last_module_id := id + 1
         module_name_to_id := (name, id) :: s.module_name_to_id
         modules := (id, { module with id := id }) :: s.modules })

/-- The `for path in self.paths` loop of `_load`: probe `<name>.<ext>` then
`lib<name>.<ext>` in each directory; the first existing file is loaded with
`load_lib` (whose error — and `DepsMap` mutation — propagates immediately). -/
def _load_scan (env : Env) (s : ModuleLoader) (name name2 name3 : String) :
    List String → Except Error Nat × ModuleLoader
  | [] => (.error (.NotFound name), s)
  | path :: rest =>
    let search := path ++ "/" ++ name2
    let search2 := path ++ "/" ++ name3
    if env.fs search || env.fs search2 then
      let target := if env.fs search then search else search2
      match load_lib env s.deps name target with
      | (.error e, d) => (.error e, { s with deps := d })
      | (.ok module, d) =>
        let (id, s') := register_os_module { s with deps := d } name module
        (.ok id, s')
    else _load_scan env s name name2 name3 rest

/-- From loader/core.rs `ModuleLoader::_load`: an already-registered name
bumps the ref count of the OS-module record (a registered *builtin* is
`NotFound` here); otherwise probe the search paths. -/
def _load (env : Env) (s : ModuleLoader) (name : String) :
    Except Error Nat × ModuleLoader :=
  let name := rust_replace name '-' '_'
  match s.module_name_to_id.lookup name with
  | some id =>
    match s.modules.lookup id with
    | some _ => (.ok id, { s with modules := bump_ref s.modules id })
    | none => (.error (.NotFound name), s)
  | none =>
    _load_scan env s name (name ++ "." ++ OS_EXT) ("lib" ++ name ++ "." ++ OS_EXT) s.paths

/-- From loader/core.rs `ModuleLoader::_load_self`: registered names bump the
ref count; otherwise `open_self` and the descriptor-symbol protocol. -/
def _load_self (env : Env) (s : ModuleLoader) (name : String) :
    Except Error Nat × ModuleLoader :=
  let name := rust_replace name '-' '_'
  match s.module_name_to_id.lookup name with
  | some id =>
    match s.modules.lookup id with
    | some _ => (.ok id, { s with modules := bump_ref s.modules id })
    | none => (.error (.NotFound name), s)
  | none =>
    match env.self_lib with
    | none => (.error .Io, s)
    | some this =>
      match load_by_symbol this name s.deps with
      | (.error e, d) => (.error e, { s with deps := d })
      | (.ok module, d) =>
        let (id, s') := register_os_module { s with deps := d } name module
        (.ok id, s')

/-- The `for builtin in self.builtins` scan of `_load_builtin`: the first
name match is loaded via the descriptor-symbol protocol, with a bare
`NotFound` from `load_by_symbol` re-labelled `MissingMetadata`. -/
def _builtin_scan (s : ModuleLoader) (name : String) :
    List (String × Library) → Except Error Nat × ModuleLoader
  | [] => (.error (.NotFound name), s)
  | (bname, lib) :: rest =>
    if bname = name then
      match load_by_symbol lib name s.deps with
      | (.error e, d) =>
        let e := match e with
          | .NotFound _ => Error.MissingMetadata
          | e => e
        (.error e, { s with deps := d })
      | (.ok module, d) =>
        let id := s.last_module_id
        (.ok id, { s with
                   deps := d
                   last_module_id := id + 1
                   module_name_to_id := (name, id) :: s.module_name_to_id
                   builtin_modules := (id, { module with id := id }) :: s.builtin_modules })
    else _builtin_scan s name rest

/-- From loader/core.rs `ModuleLoader::_load_builtin`. -/
def _load_builtin (s : ModuleLoader) (name : String) :
    Except Error Nat × ModuleLoader :=
  let name := rust_replace name '-' '_'
  match s.module_name_to_id.lookup name with
  | some id =>
    match s.builtin_modules.lookup id with
    | some _ => (.ok id, { s with builtin_modules := bump_ref s.builtin_modules id })
    | none => (.error (.NotFound name), s)
  | none => _builtin_scan s name s.builtins

/-- From loader/core.rs `ModuleLoader::_unload`: decrement the ref count of
the record found through the name index (OS map first, builtin map second);
at zero remove the name binding and the record, then run the close protocol
(whose error propagates after the removal, as in the source). -/
def _unload (s : ModuleLoader) (name : String) :
    Except Error Unit × ModuleLoader :=
  let name := rust_replace name '-' '_'
  match s.module_name_to_id.lookup name with
  | none => (.error (.NotFound name), s)
  | some id =>
    match s.modules.lookup id with
    | some m =>
      let rc := m.ref_count - 1
      if rc = 0 then
        let s' := { s with
                    module_name_to_id := remove_name s.module_name_to_id name
                    modules := remove_id s.modules id }
        (module_close name false m, s')
      else (.ok (), { s with modules := set_ref s.modules id rc })
    | none =>
      match s.builtin_modules.lookup id with
      | none => (.error (.NotFound name), s)
      | some m =>
        let rc := m.ref_count - 1
        if rc = 0 then
          let s' := { s with
                      module_name_to_id := remove_name s.module_name_to_id name
                      builtin_modules := remove_id s.builtin_modules id }
          (module_close name true m, s')
        else (.ok (), { s with builtin_modules := set_ref s.builtin_modules id rc })

/-- From loader/core.rs `ModuleLoader::_add_search_path`. -/
def _add_search_path (s : ModuleLoader) (path : String) : ModuleLoader :=
  { s with paths := s.paths ++ [path] }

/-- From loader/core.rs `ModuleLoader::_add_public_dependency` (the loader
entry point of the master-dependency registration). -/
def _add_public_dependency (s : ModuleLoader) (name version : String)
    (features : List String) : ModuleLoader :=
  { s with deps := add_public_dependency s.deps name version features }

end ModuleLoader

/-! ## Load/unload sequences (for the reference-counting properties) -/

/-- A call in a load/unload sequence for one fixed name. -/
inductive Op where
  | load
  | unload
deriving DecidableEq

/-- Is `name` currently registered (present in the name index)? -/
def registered (s : ModuleLoader) (name : String) : Bool :=
  (s.module_name_to_id.lookup (rust_replace name '-' '_')).isSome

/-- Run a sequence of `load`/`unload` calls for `name`. -/
def run_ops (env : Env) (name : String) : List Op → ModuleLoader → ModuleLoader
  | [], s => s
  | .load :: r, s => run_ops env name r (ModuleLoader._load env s name).2
  | .unload :: r, s => run_ops env name r (ModuleLoader._unload s name).2

/-- Do all loads of the sequence return `ok`, and is every unload issued
while the name is registered (i.e. every unload call takes effect)? -/
def ops_effective (env : Env) (name : String) : List Op → ModuleLoader → Bool
  | [], _ => true
  | .load :: r, s =>
    (ModuleLoader._load env s name).1.isOk &&
      ops_effective env name r (ModuleLoader._load env s name).2
  | .unload :: r, s =>
    registered s name && ops_effective env name r (ModuleLoader._unload s name).2

/-- Do all loads of the sequence return `ok`? Unload calls are unconstrained:
they are calls of the sequence whether or not the name is registered. -/
def loads_ok (env : Env) (name : String) : List Op → ModuleLoader → Bool
  | [], _ => true
  | .load :: r, s =>
    (ModuleLoader._load env s name).1.isOk &&
      loads_ok env name r (ModuleLoader._load env s name).2
  | .unload :: r, s => loads_ok env name r (ModuleLoader._unload s name).2

/-- The number of unload steps that take the running reference balance from
1 to 0 — the steps whose unload enters the `ref_count == 0` branch when every
unload is issued on a registered name. -/
def zero_crossings : Nat → List Op → Nat
  | _, [] => 0
  | b, .load :: r => zero_crossings (b + 1) r
  | b, .unload :: r => (if b = 1 then 1 else 0) + zero_crossings (b - 1) r

/-- State characterization along a load/unload sequence for module `m` under
`c3_env`: the search path is intact and the reference balance `b` is mirrored
exactly by the registry — unregistered at 0, one record with `ref_count = b`
otherwise. -/
def c3_inv (s : ModuleLoader) (b : Nat) : Prop :=
  s.paths = ["/p"] ∧
  (b = 0 → s.module_name_to_id.lookup "m" = none) ∧
  (0 < b → ∃ id m, s.module_name_to_id.lookup "m" = some id ∧
    s.modules.lookup id = some m ∧ m.ref_count = b)

/-- How many steps of the sequence finalize the module: an unload that removes
the name from the registry (exactly the `ref_count == 0` branch, the one that
runs the close hooks and drops the record). -/
def fin_count (env : Env) (name : String) : List Op → ModuleLoader → Nat
  | [], _ => 0
  | .load :: r, s => fin_count env name r (ModuleLoader._load env s name).2
  | .unload :: r, s =>
    (if registered s name && !(registered (ModuleLoader._unload s name).2 name)
     then 1 else 0) +
      fin_count env name r (ModuleLoader._unload s name).2

end BP3D

namespace BP3D

/-! ## Concrete inputs used by the claim theorems -/

/-- A minimal unmanaged (non-`RUST`) descriptor body. -/
def plain_body : List Nat := strBytes "TYPE=MODULE|NAME=m|VERSION=1.0.0"

/-- A library exposing no symbols at all. -/
def empty_lib : Library := ⟨fun _ => none, fun _ => false⟩

/-- The descriptor-constant bytes for module `m`: one guard byte, then the
NUL-terminated descriptor. -/
def m_desc_sym : List Nat := 1 :: (MOD_HEADER ++ plain_body ++ [0])

/-- A library exporting exactly the descriptor constant of module `m`. -/
def m_lib : Library :=
  ⟨fun sym => if sym = "BP3D_OS_MODULE_M" then some m_desc_sym else none,
   fun _ => false⟩

/-- Environment for the resolution-order claim: no files anywhere, but the
current process image and the builtin table both carry module `m`. -/
def c2_env : Env := ⟨fun _ => false, fun _ => [], fun _ => none, some m_lib⟩

/-- Loader state for the resolution-order claim: empty registry, no search
paths, the builtin table holding `m`. -/
def c2_state : ModuleLoader := ⟨[], [], [], DepsMap.new, [("m", m_lib)], [], 0⟩

/-- A well-formed descriptor file for an unmanaged module `m`. -/
def m_file : List Nat := MOD_HEADER ++ plain_body ++ [0]

/-- Environment for the ref-counting sequences: `/p/m.so` exists with the
plain descriptor, and the OS opens it as a symbol-less library. -/
def c3_env : Env :=
  ⟨fun p => p == "/p/m.so", fun _ => m_file, fun _ => some empty_lib, none⟩

/-- Loader state with the single search path `/p` and nothing loaded. -/
def c3_state : ModuleLoader := ⟨["/p"], [], [], DepsMap.new, [], [], 0⟩

/-- The parsed metadata of the plain descriptor `m_file` (fields in reverse
file order, from the consing parser). -/
def c3_md : Metadata := [("VERSION", "1.0.0"), ("NAME", "m"), ("TYPE", "MODULE")]

/-- State after one fresh load of `m` from `c3_state`. -/
def c3_s1 : ModuleLoader :=
  ⟨["/p"], [(0, { ModuleRec.new empty_lib c3_md with id := 0 })], [],
   DepsMap.new, [], [("m", 0)], 1⟩

/-- State after that load is unloaded: `m` finalized, only the id counter
advanced. -/
def c3_s2 : ModuleLoader := ⟨["/p"], [], [], DepsMap.new, [], [], 1⟩

/-- State after a second fresh load of `m` (from `c3_s2`). -/
def c3_s3 : ModuleLoader :=
  ⟨["/p"], [(1, { ModuleRec.new empty_lib c3_md with id := 1 })], [],
   DepsMap.new, [], [("m", 1)], 2⟩

/-- A managed (`RUST`) descriptor body for module `m` declaring dependency
`a = 1.0.0` and no features. -/
def rust_body : List Nat :=
  strBytes ("TYPE=RUST|RUSTC=" ++ RUSTC_VERSION ++
    "|NAME=m|VERSION=1.0.0|DEPS=a=1.0.0|FEATURES=")

/-- The descriptor file for the managed module `m`. -/
def rust_file : List Nat := MOD_HEADER ++ rust_body ++ [0]

/-- Environment for the failed-load-commit claim: `/p/m.so` exists with the
managed descriptor, but the OS refuses to open the library. -/
def c10_env : Env :=
  ⟨fun p => p == "/p/m.so", fun _ => rust_file, fun _ => none, none⟩

/-- Metadata of a first accepted module `test` (version 1.0.0, no deps). -/
def c7_meta1 : Metadata :=
  [("TYPE", "RUST"), ("RUSTC", RUSTC_VERSION), ("NAME", "test"),
   ("VERSION", "1.0.0"), ("DEPS", ""), ("FEATURES", "")]

/-- Metadata of a candidate `test1` (own version 2.0.0) declaring
`test = 0.1.0`. -/
def c7_meta2 : Metadata :=
  [("TYPE", "RUST"), ("RUSTC", RUSTC_VERSION), ("NAME", "test1"),
   ("VERSION", "2.0.0"), ("DEPS", "test=0.1.0"), ("FEATURES", "")]

/-- A plain (unmanaged) module record over the empty library. -/
def plain_mod : ModuleRec := ModuleRec.new empty_lib [("TYPE", "MODULE")]

/-- A loader holding the single registered module `m` (id 0, one reference). -/
def c6_state : ModuleLoader :=
  ⟨[], [(0, plain_mod)], [], DepsMap.new, [], [("m", 0)], 1⟩

/-- Loader state with the single search path `/p` and nothing loaded, for
the failed-load-commit claim. -/
def c10_state : ModuleLoader := ⟨["/p"], [], [], DepsMap.new, [], [], 0⟩

/-- The parsed metadata of the managed descriptor `rust_file` (insertion
builds the list by consing, so fields appear in reverse file order). -/
def c10_md : Metadata :=
  [("FEATURES", ""), ("DEPS", "a=1.0.0"), ("VERSION", "1.0.0"),
   ("NAME", "m"), ("RUSTC", RUSTC_VERSION), ("TYPE", "RUST")]

/-- The `DepsMap` after candidate `m` passes negotiation: its dependency
table, the reverse index for `a` and its version are committed. -/
def c10_committed : DepsMap :=
  ⟨[("m", [("a", ⟨"1.0.0", [], []⟩)])], [("a", ["m"])], [("m", "1.0.0")], []⟩

/-- The body of the stray-`B` file of the metadata-scanning claim. -/
def c4_bodyA : List Nat := strBytes "TYPE=MODULE|NAME=a"

/-- Everything after the stray `'B'` of the first counterexample file: an
`'X'`, then the well-formed descriptor up to (excluding) its NUL. -/
def c4_midA : List Nat := 88 :: (MOD_HEADER ++ c4_bodyA)

/-- First counterexample file: a stray `'B'` and an `'X'` (no NUL between
them) directly before a single well-formed NUL-terminated descriptor. -/
def c4_fileA : List Nat := (66 :: c4_midA) ++ [0]

/-- The single well-formed descriptor shared by the counterexample files. -/
def c4_descB : List Nat := MOD_HEADER ++ (c4_bodyA ++ [0])

/-- Second counterexample file: 8190 filler bytes `'A'`, then the descriptor,
whose magic prefix straddles the 8192-byte chunk boundary. -/
def c4_fileB : List Nat := List.replicate 8190 65 ++ c4_descB

end BP3D

deriving instance DecidableEq for Except

namespace BP3D

/-! ## Supporting lemmas -/

/-- `parse_item` fails only with `InvalidDepFormat`. -/
theorem parse_item_error {s : String} {e : Error}
    (h : Value.parse_item s = .error e) : e = .InvalidDepFormat := by
  unfold Value.parse_item at h
  split at h <;> simp_all

/-- `feature_cover_loop` fails only with `IncompatibleFeatureSet name`. -/
theorem feature_cover_loop_error {fset : List String} {name : String}
    {fs : List String} {e : Error}
    (h : feature_cover_loop fset name fs = .error e) :
    e = .IncompatibleFeatureSet name := by
  induction fs with
  | nil => simp [feature_cover_loop] at h
  | cons f rest ih =>
    unfold feature_cover_loop at h
    split at h
    · simp_all
    · split at h
      · exact ih h
      · simp_all

/-- `check_dep_features` fails only with `IncompatibleFeatureSet name`. -/
theorem check_dep_features_error {name : String} {dep : Dependency}
    {features : String} {e : Error}
    (h : check_dep_features name dep features = .error e) :
    e = .IncompatibleFeatureSet name := by
  simp only [check_dep_features] at h
  split at h
  · split at h
    · simp_all
    · split at h
      · injection h with h1
        subst h1
        apply feature_cover_loop_error
        assumption
      · split at h <;> simp_all
  · split at h <;> simp_all

/-- A `check_dep_entry` feature-set failure names the entry's dependency. -/
theorem check_dep_entry_feature_error {deps2 : List (String × Dependency)}
    {features name version : String} {x : String}
    (h : check_dep_entry deps2 features name version =
      .error (.IncompatibleFeatureSet x)) : x = name := by
  unfold check_dep_entry at h
  split at h
  · simp_all
  · split at h
    · simp_all
    · have := check_dep_features_error h
      simp_all

end BP3D

namespace BP3D

/-- `check_metadata` either leaves the map untouched or succeeds. -/
theorem check_metadata_cases (md : Metadata) (d : DepsMap) :
    (check_metadata md d).2 = d ∨ (check_metadata md d).1 = .ok () := by
  unfold check_metadata
  repeat' split
  all_goals simp

/-- C5: if negotiation of a candidate's metadata fails with any error, the
`DepsMap` (all four tables: `deps_by_module`, `module_by_dep`,
`module_version`, `master`) is exactly what it was before the attempt —
entries are committed only after every compatibility check passes. -/
theorem c5_rejected_candidate_leaves_deps_map_unchanged
    (md : Metadata) (d : DepsMap) (e : Error)
    (h : (check_metadata md d).1 = .error e) :
    (check_metadata md d).2 = d := by
  rcases check_metadata_cases md d with h2 | h2
  · exact h2
  · rw [h2] at h
    cases h

/-- Witness for C5 at a concrete rejected candidate (a `RUST` module missing
its `RUSTC` key). -/
theorem c5_rejected_candidate_leaves_deps_map_unchanged_witness :
    (check_metadata [("TYPE", "RUST")] DepsMap.new).1 =
      .error .MissingVersionForRust ∧
    (check_metadata [("TYPE", "RUST")] DepsMap.new).2 = DepsMap.new :=
  ⟨by decide,
   c5_rejected_candidate_leaves_deps_map_unchanged [("TYPE", "RUST")]
     DepsMap.new .MissingVersionForRust (by decide)⟩

/-- C1 counterexample: a master dependency `a` with feature list exactly
`["*"]` and no negative features rejects a candidate declaring `a = 1.0.0`
with an empty `FEATURES` value — `check_deps` fails with
`IncompatibleFeatureSet a`, so the wildcard does not accept the empty set. -/
theorem c1_counterexample :
    check_deps "a=1.0.0" "" [("a", Dependency.mk "1.0.0" ["*"] [])] =
      .error (.IncompatibleFeatureSet "a") := by decide

/-- Unfolding: `check_deps_items` on a failed item. -/
theorem check_deps_items_err (features : String)
    (deps2 : List (String × Dependency)) (e : Error)
    (rest : List (Except Error (String × String))) :
    check_deps_items features deps2 (.error e :: rest) = .error e := rfl

/-- Unfolding: `check_deps_items` on a parsed item. -/
theorem check_deps_items_ok (features : String)
    (deps2 : List (String × Dependency)) (p : String × String)
    (rest : List (Except Error (String × String))) :
    check_deps_items features deps2 (.ok p :: rest) =
      Except.bind (check_dep_entry deps2 features p.1 p.2)
        (fun _ => check_deps_items features deps2 rest) := rfl

/-- A dependency entry only consults its own binding: a shadowing head
binding makes the tail of the table irrelevant. -/
theorem check_dep_entry_cons_self (n : String) (dep : Dependency)
    (t : List (String × Dependency)) (features v : String) :
    check_dep_entry ((n, dep) :: t) features n v =
      check_dep_entry [(n, dep)] features n v := by
  simp [check_dep_entry, List.lookup]

/-- A wildcard master entry `d` (features exactly `["*"]`, no negatives) is
never the source of an `IncompatibleFeatureSet d` failure while walking a
candidate's item list, provided the `FEATURES` value is non-empty and every
pre-parsed item failure is a plain `InvalidDepFormat`. -/
theorem check_deps_items_wildcard
    (d featsVal : String) (master : List (String × Dependency))
    (dep : Dependency)
    (hd : master.lookup d = some dep)
    (hfs : dep.features = ["*"])
    (hneg : dep.negative_features = [])
    (hne : featsVal.isEmpty = false) :
    ∀ items : List (Except Error (String × String)),
      (∀ x ∈ items, ∀ e, x = .error e → e = .InvalidDepFormat) →
      check_deps_items featsVal master items ≠
        .error (.IncompatibleFeatureSet d) := by
  intro items
  induction items with
  | nil => intro _; simp [check_deps_items]
  | cons item rest ih =>
    intro hprop
    have hrest := fun x hx => hprop x (List.mem_cons_of_mem _ hx)
    cases item with
    | error e =>
      have he : e = .InvalidDepFormat :=
        hprop _ (List.mem_cons_self _ _) e rfl
      subst he
      rw [check_deps_items_err]
      simp
    | ok p =>
      rw [check_deps_items_ok]
      by_cases hnd : p.1 = d
      · rw [hnd]
        simp only [check_dep_entry, hd]
        by_cases hv : p.2 ≠ dep.version
        · rw [if_pos hv]
          simp [Except.bind]
        · rw [if_neg hv]
          have hfeat : check_dep_features d dep featsVal = .ok () := by
            simp [check_dep_features, Value.as_list, hne, hneg, hfs,
              feature_cover_loop]
          rw [hfeat]
          exact ih hrest
      · cases he : check_dep_entry master featsVal p.1 p.2 with
        | error e =>
          intro hcontra
          have h2 : (Except.error e : Except Error Unit) =
              .error (.IncompatibleFeatureSet d) := hcontra
          injection h2 with h3
          subst h3
          exact hnd (check_dep_entry_feature_error he).symm
        | ok u =>
          cases u
          exact ih hrest

/-- C1 (amended): a master dependency `d` with feature list exactly `["*"]`
and no negative features never makes `check_deps` fail with
`IncompatibleFeatureSet d`, provided the candidate's `FEATURES` value is
non-empty (an empty `FEATURES` value takes the `as_list = None` branch, which
rejects against any non-empty master feature list — see the
counterexample). -/
theorem c1_wildcard_master_accepts_nonempty
    (d depsVal featsVal : String) (master : List (String × Dependency))
    (dep : Dependency)
    (hd : master.lookup d = some dep)
    (hfs : dep.features = ["*"])
    (hneg : dep.negative_features = [])
    (hne : featsVal.isEmpty = false) :
    check_deps depsVal featsVal master ≠ .error (.IncompatibleFeatureSet d) := by
  unfold check_deps
  cases hp : Value.parse_key_value_pairs depsVal with
  | none => simp
  | some items =>
    obtain ⟨l, -, rfl⟩ :
        ∃ l, Value.as_list depsVal = some l ∧ items = l.map Value.parse_item := by
      unfold Value.parse_key_value_pairs at hp
      cases hl : Value.as_list depsVal with
      | none => rw [hl] at hp; cases hp
      | some l =>
        rw [hl] at hp
        refine ⟨l, rfl, ?_⟩
        injection hp with h
        exact h.symm
    apply check_deps_items_wildcard d featsVal master dep hd hfs hneg hne
    intro x hx e hxe
    obtain ⟨s, -, rfl⟩ := List.mem_map.mp hx
    exact parse_item_error hxe

/-- Witness for the amended C1: the wildcard master `a` accepts a candidate
whose feature set contains no `a`-qualified feature at all. -/
theorem c1_wildcard_master_accepts_nonempty_witness :
    ([("a", Dependency.mk "1.0.0" ["*"] [])].lookup "a" =
        some (Dependency.mk "1.0.0" ["*"] []) ∧
     (Dependency.mk "1.0.0" ["*"] []).features = ["*"] ∧
     (Dependency.mk "1.0.0" ["*"] []).negative_features = [] ∧
     ("b/x" : String).isEmpty = false) ∧
    check_deps "a=1.0.0" "b/x" [("a", Dependency.mk "1.0.0" ["*"] [])] ≠
      .error (.IncompatibleFeatureSet "a") :=
  ⟨⟨by decide, by decide, by decide, by decide⟩,
   c1_wildcard_master_accepts_nonempty "a" "a=1.0.0" "b/x"
     [("a", Dependency.mk "1.0.0" ["*"] [])] (Dependency.mk "1.0.0" ["*"] [])
     (by decide) (by decide) (by decide) (by decide)⟩

/-- C9: a negative feature declared through the public
`add_public_dependency` path is stored verbatim (leading `-`, not qualified
by the dependency name), so a candidate declaring the corresponding positive
qualified feature `a/def` is *accepted* — `check_deps` returns `ok` even
though the claim (and the spec) require `IncompatibleFeatureSet`. -/
theorem c9_public_negative_feature_never_matches (s : ModuleLoader) :
    ((ModuleLoader._add_public_dependency s "a" "1.0.0"
        ["-/def", "*"]).deps.master.lookup "a" =
      some (Dependency.mk "1.0.0" ["*"] ["-/def"])) ∧
    check_deps "a=1.0.0" "a/def"
      (ModuleLoader._add_public_dependency s "a" "1.0.0"
        ["-/def", "*"]).deps.master = .ok () := by
  have hbuild : build_public_dependency "a" "1.0.0" ["-/def", "*"] =
      Dependency.mk "1.0.0" ["*"] ["-/def"] := by decide
  have hrep : rust_replace "a" '-' '_' = "a" := by decide
  have hmaster : (ModuleLoader._add_public_dependency s "a" "1.0.0"
      ["-/def", "*"]).deps.master =
      ("a", Dependency.mk "1.0.0" ["*"] ["-/def"]) :: s.deps.master := by
    simp [ModuleLoader._add_public_dependency, add_public_dependency,
      DepsMap.add_dep, hbuild, hrep]
  rw [hmaster]
  constructor
  · simp [List.lookup]
  · have hp : Value.parse_key_value_pairs "a=1.0.0" =
        some [Except.ok ("a", "1.0.0")] := by decide
    unfold check_deps
    rw [hp]
    show check_deps_items "a/def"
      (("a", Dependency.mk "1.0.0" ["*"] ["-/def"]) :: s.deps.master)
      [Except.ok ("a", "1.0.0")] = Except.ok ()
    rw [check_deps_items_ok, check_dep_entry_cons_self]
    have hce : check_dep_entry
        [("a", Dependency.mk "1.0.0" ["*"] ["-/def"])] "a/def" "a" "1.0.0" =
        .ok () := by decide
    rw [hce]
    rfl

end BP3D

namespace BP3D

/-- C7: in the direct module-on-module version check, the source reports the
candidate's own `VERSION` in the error's `actual_version` field rather than
the version the candidate declared for the dependency. Module `test` was
accepted at version `1.0.0`; candidate `test1` (own version `2.0.0`) declares
`test=0.1.0`, yet the error carries `actual_version = "2.0.0"` — the
candidate's VERSION — not the declared `"0.1.0"`. -/
theorem c7_module_dep_error_reports_candidate_version :
    (check_metadata c7_meta2 (check_metadata c7_meta1 DepsMap.new).2).1 =
      .error (.IncompatibleDep
        (IncompatibleDependency.mk "test" "2.0.0" "1.0.0")) ∧
    ("2.0.0" : String) ≠ "0.1.0" := ⟨by decide, by decide⟩

/-- `feature_cover_loop` with no wildcard errors as soon as some master
feature is missing from the candidate set. -/
theorem feature_cover_loop_missing (fset : List String) (name f : String)
    (hmiss : fset.contains f = false) :
    ∀ fs, "*" ∉ fs → f ∈ fs →
      feature_cover_loop fset name fs = .error (.IncompatibleFeatureSet name) := by
  intro fs
  induction fs with
  | nil => intro _ hf; cases hf
  | cons g rest ih =>
    intro hw hf
    unfold feature_cover_loop
    rw [if_neg (fun h => hw (by rw [← h]; exact List.mem_cons_self g rest))]
    rcases List.mem_cons.mp hf with rfl | hfr
    · rw [hmiss]
      simp
    · by_cases hg : fset.contains g = true
      · rw [hg]
        simp only [if_true]
        exact ih (fun h => hw (List.mem_cons_of_mem _ h)) hfr
      · rw [Bool.not_eq_true] at hg
        rw [hg]
        simp

/-- `feature_cover_loop` with no wildcard and full coverage ends with
`flag = true`. -/
theorem feature_cover_loop_all (fset : List String) (name : String) :
    ∀ fs, "*" ∉ fs → (∀ f ∈ fs, fset.contains f = true) →
      feature_cover_loop fset name fs = .ok true := by
  intro fs
  induction fs with
  | nil => intro _ _; rfl
  | cons g rest ih =>
    intro hw hall
    unfold feature_cover_loop
    rw [if_neg (fun h => hw (by rw [← h]; exact List.mem_cons_self g rest)),
      hall g (List.mem_cons_self g rest)]
    simp only [if_true]
    exact ih (fun h => hw (List.mem_cons_of_mem _ h))
      (fun f hf => hall f (List.mem_cons_of_mem _ hf))

/-- A duplicate-free list strictly contained (as a set) in another
duplicate-free list is strictly shorter. -/
theorem nodup_length_lt {l1 l2 : List String} (h1 : l1.Nodup) (h2 : l2.Nodup)
    (hsub : ∀ x ∈ l1, x ∈ l2) (x : String) (hx : x ∈ l2) (hnx : x ∉ l1) :
    l1.length < l2.length := by
  have hs : l1.toFinset ⊆ l2.toFinset := fun y hy =>
    List.mem_toFinset.mpr (hsub y (List.mem_toFinset.mp hy))
  have hss : l1.toFinset ⊂ l2.toFinset :=
    ⟨hs, fun hsub2 => hnx (List.mem_toFinset.mp (hsub2 (List.mem_toFinset.mpr hx)))⟩
  have hcard := Finset.card_lt_card hss
  rwa [List.toFinset_card_of_nodup h1, List.toFinset_card_of_nodup h2] at hcard

/-- Unfolding `check_dep_features` when `FEATURES` parses to a list. -/
theorem check_dep_features_eq_some (name : String) (dep : Dependency)
    (features : String) (feats : List String)
    (hfl : Value.as_list features = some feats) :
    check_dep_features name dep features =
      (if (dep.negative_features.any
            fun f => (qualified_set feats name).contains f) = true
       then .error (.IncompatibleFeatureSet name)
       else
         match feature_cover_loop (qualified_set feats name) name dep.features with
         | .error e => .error e
         | .ok flag =>
           if flag = true ∧ (qualified_set feats name).length ≠ dep.features.length
           then .error (.IncompatibleFeatureSet name)
           else .ok ()) := by
  unfold check_dep_features
  rw [hfl]

/-- Unfolding `check_dep_features` when the `FEATURES` value is empty. -/
theorem check_dep_features_eq_none (name : String) (dep : Dependency)
    (features : String) (hfl : Value.as_list features = none) :
    check_dep_features name dep features =
      if dep.features ≠ [] then .error (.IncompatibleFeatureSet name)
      else .ok () := by
  unfold check_dep_features
  rw [hfl]

/-- C8: for a master dependency `d` without the wildcard (features read as a
set, hence duplicate-free), a version-matching candidate entry for `d` fails
with `IncompatibleFeatureSet d` both when its qualified feature set misses a
master feature and when it covers every master feature but declares an extra
one — equality, neither subset nor superset. -/
theorem c8_symmetric_feature_equality
    (d v depsVal featsVal : String) (master : List (String × Dependency))
    (dep : Dependency) (rest : List (Except Error (String × String)))
    (hparse : Value.parse_key_value_pairs depsVal = some (.ok (d, v) :: rest))
    (hd : master.lookup d = some dep)
    (hver : dep.version = v)
    (hwild : "*" ∉ dep.features)
    (hnodup : dep.features.Nodup)
    (hbad :
      (∃ f ∈ dep.features,
        f ∉ qualified_set ((Value.as_list featsVal).getD []) d) ∨
      ((∀ f ∈ dep.features,
          f ∈ qualified_set ((Value.as_list featsVal).getD []) d) ∧
        ∃ x ∈ qualified_set ((Value.as_list featsVal).getD []) d,
          x ∉ dep.features)) :
    check_deps depsVal featsVal master = .error (.IncompatibleFeatureSet d) := by
  unfold check_deps
  rw [hparse]
  show check_deps_items featsVal master (.ok (d, v) :: rest) = _
  rw [check_deps_items_ok]
  have hentry : check_dep_entry master featsVal d v =
      .error (.IncompatibleFeatureSet d) := by
    simp only [check_dep_entry, hd]
    rw [if_neg (fun h => h hver.symm)]
    cases hfl : Value.as_list featsVal with
    | none =>
      rw [check_dep_features_eq_none _ _ _ hfl]
      rw [hfl] at hbad
      rcases hbad with ⟨f, hf, -⟩ | ⟨-, ⟨x, hx, -⟩⟩
      · rw [if_pos]
        intro hnil
        rw [hnil] at hf
        cases hf
      · simp [qualified_set] at hx
    | some feats =>
      rw [check_dep_features_eq_some _ _ _ _ hfl]
      rw [hfl] at hbad
      simp only [Option.getD_some] at hbad
      by_cases hnegb :
          dep.negative_features.any
            (fun f => (qualified_set feats d).contains f) = true
      · rw [hnegb]
        simp
      · rw [Bool.not_eq_true] at hnegb
        rw [hnegb]
        simp only [Bool.false_eq_true, if_false]
        rcases hbad with ⟨f, hf, hfnot⟩ | ⟨hall, ⟨x, hx, hxnot⟩⟩
        · have hmiss : (qualified_set feats d).contains f = false := by
            simpa using hfnot
          rw [feature_cover_loop_missing _ _ _ hmiss dep.features hwild hf]
        · have hcov : feature_cover_loop (qualified_set feats d) d
              dep.features = .ok true := by
            apply feature_cover_loop_all _ _ _ hwild
            intro f hf
            simpa using hall f hf
          rw [hcov]
          have hlen : dep.features.length < (qualified_set feats d).length :=
            nodup_length_lt hnodup (List.nodup_dedup _) hall x hx hxnot
          show (if (true = true ∧ (qualified_set feats d).length ≠ dep.features.length)
              then Except.error (Error.IncompatibleFeatureSet d)
              else Except.ok ()) = Except.error (Error.IncompatibleFeatureSet d)
          rw [if_pos ⟨rfl, fun h => absurd h.symm (Nat.ne_of_lt hlen)⟩]
  rw [hentry]
  rfl

/-- Witness for C8: the master declares `["a/x", "a/y"]`; a candidate
declaring only `a/x` is rejected with `IncompatibleFeatureSet a`. -/
theorem c8_symmetric_feature_equality_witness :
    (Value.parse_key_value_pairs "a=1.0.0" = some [.ok ("a", "1.0.0")] ∧
     [("a", Dependency.mk "1.0.0" ["a/x", "a/y"] [])].lookup "a" =
       some (Dependency.mk "1.0.0" ["a/x", "a/y"] []) ∧
     ("a/y" : String) ∈ ["a/x", "a/y"] ∧
     ("a/y" : String) ∉
       qualified_set ((Value.as_list "a/x").getD []) "a") ∧
    check_deps "a=1.0.0" "a/x" [("a", Dependency.mk "1.0.0" ["a/x", "a/y"] [])] =
      .error (.IncompatibleFeatureSet "a") :=
  ⟨⟨by decide, by decide, by decide, by decide⟩,
   c8_symmetric_feature_equality "a" "1.0.0" "a=1.0.0" "a/x"
     [("a", Dependency.mk "1.0.0" ["a/x", "a/y"] [])]
     (Dependency.mk "1.0.0" ["a/x", "a/y"] []) []
     (by decide) (by decide) (by decide) (by decide) (by decide)
     (Or.inl ⟨"a/y", by decide, by decide⟩)⟩

end BP3D

namespace BP3D

/-- Lookup through a key-preserving pointwise update (the common shape of
`bump_ref` and `set_ref`). -/
theorem lookup_map_keyed (f : ModuleRec → ModuleRec)
    (modules : List (Nat × ModuleRec)) (id j : Nat) :
    (modules.map (fun p => if p.1 = id then (p.1, f p.2) else p)).lookup j =
      if j = id then (modules.lookup j).map f else modules.lookup j := by
  induction modules with
  | nil => by_cases h : j = id <;> simp [h]
  | cons p rest ih =>
    obtain ⟨k, m⟩ := p
    by_cases hk : k = id
    · subst hk
      by_cases hj : j = k
      · subst hj
        simp [List.lookup_cons]
      · have hb : (j == k) = false := beq_eq_false_iff_ne.mpr hj
        simp [List.lookup_cons, hb, hj, ih]
    · by_cases hj : j = k
      · subst hj
        have hji : ¬j = id := hk
        simp [List.lookup_cons, hk, hji]
      · have hb : (j == k) = false := beq_eq_false_iff_ne.mpr hj
        simp [List.lookup_cons, hk, hb, ih]

/-- `bump_ref` under the bumped key. -/
theorem lookup_bump_ref_self (modules : List (Nat × ModuleRec)) (id : Nat) :
    (ModuleLoader.bump_ref modules id).lookup id =
      (modules.lookup id).map
        (fun m => { m with ref_count := m.ref_count + 1 }) := by
  have h := lookup_map_keyed
    (fun m => { m with ref_count := m.ref_count + 1 }) modules id id
  rw [if_pos rfl] at h
  exact h

/-- `bump_ref` leaves every other key's binding untouched. -/
theorem lookup_bump_ref_other (modules : List (Nat × ModuleRec)) (id j : Nat)
    (hj : j ≠ id) :
    (ModuleLoader.bump_ref modules id).lookup j = modules.lookup j := by
  have h := lookup_map_keyed
    (fun m => { m with ref_count := m.ref_count + 1 }) modules id j
  rw [if_neg hj] at h
  exact h

/-- `set_ref` under the updated key. -/
theorem lookup_set_ref_self (modules : List (Nat × ModuleRec)) (id rc : Nat) :
    (ModuleLoader.set_ref modules id rc).lookup id =
      (modules.lookup id).map (fun m => { m with ref_count := rc }) := by
  have h := lookup_map_keyed (fun m => { m with ref_count := rc }) modules id id
  rw [if_pos rfl] at h
  exact h

/-- `set_ref` leaves every other key's binding untouched. -/
theorem lookup_set_ref_other (modules : List (Nat × ModuleRec)) (id rc j : Nat)
    (hj : j ≠ id) :
    (ModuleLoader.set_ref modules id rc).lookup j = modules.lookup j := by
  have h := lookup_map_keyed (fun m => { m with ref_count := rc }) modules id j
  rw [if_neg hj] at h
  exact h

end BP3D

namespace BP3D

/-- C6: re-loading a name already registered as an OS-loaded module returns
the same id and bumps that record's ref count by exactly one — everything
else (search paths, `DepsMap`, name index, builtin table, id counter, every
other module record) is untouched, so the Library is not re-opened, no open
hooks run and negotiation is not re-executed; the single following unload
only decrements the count back (the record stays, the name stays registered,
so the finalization branch — the one that runs close hooks — is not taken). -/
theorem c6_repeat_load_then_unload_frame (env : Env) (s : ModuleLoader)
    (name : String) (id : Nat) (m : ModuleRec)
    (hreg : s.module_name_to_id.lookup (rust_replace name '-' '_') = some id)
    (hmod : s.modules.lookup id = some m)
    (hrc : 1 ≤ m.ref_count) :
    (ModuleLoader._load env s name).1 = .ok id ∧
    ((ModuleLoader._load env s name).2.paths = s.paths ∧
     (ModuleLoader._load env s name).2.deps = s.deps ∧
     (ModuleLoader._load env s name).2.module_name_to_id = s.module_name_to_id ∧
     (ModuleLoader._load env s name).2.builtin_modules = s.builtin_modules ∧
     (ModuleLoader._load env s name).2.builtins = s.builtins ∧
     (ModuleLoader._load env s name).2.last_module_id = s.last_module_id ∧
     (ModuleLoader._load env s name).2.modules.lookup id =
       some { m with ref_count := m.ref_count + 1 } ∧
     (∀ j, j ≠ id →
       (ModuleLoader._load env s name).2.modules.lookup j =
         s.modules.lookup j)) ∧
    ((ModuleLoader._unload (ModuleLoader._load env s name).2 name).1 = .ok () ∧
     (ModuleLoader._unload
        (ModuleLoader._load env s name).2 name).2.module_name_to_id =
       s.module_name_to_id ∧
     (ModuleLoader._unload
        (ModuleLoader._load env s name).2 name).2.modules.lookup id = some m ∧
     (∀ j, j ≠ id →
       (ModuleLoader._unload
          (ModuleLoader._load env s name).2 name).2.modules.lookup j =
         s.modules.lookup j) ∧
     (ModuleLoader._unload (ModuleLoader._load env s name).2 name).2.deps =
       s.deps ∧
     (ModuleLoader._unload (ModuleLoader._load env s name).2 name).2.paths =
       s.paths ∧
     (ModuleLoader._unload
        (ModuleLoader._load env s name).2 name).2.builtin_modules =
       s.builtin_modules ∧
     registered (ModuleLoader._unload
        (ModuleLoader._load env s name).2 name).2 name = true) := by
  have hload : ModuleLoader._load env s name =
      (.ok id, { s with modules := ModuleLoader.bump_ref s.modules id }) := by
    simp only [ModuleLoader._load, hreg, hmod]
  have hlk : (ModuleLoader.bump_ref s.modules id).lookup id =
      some { m with ref_count := m.ref_count + 1 } := by
    rw [lookup_bump_ref_self, hmod]
    rfl
  have hrcne : m.ref_count + 1 - 1 ≠ 0 := by omega
  have hunload : ModuleLoader._unload
      { s with modules := ModuleLoader.bump_ref s.modules id } name =
      (.ok (), { s with modules :=
        (ModuleLoader.set_ref (ModuleLoader.bump_ref s.modules id) id
          (m.ref_count + 1 - 1)) }) := by
    simp only [ModuleLoader._unload, hreg, hlk, hrcne]
    simp
  rw [hload]
  refine ⟨rfl, ⟨rfl, rfl, rfl, rfl, rfl, rfl, hlk,
    fun j hj => lookup_bump_ref_other s.modules id j hj⟩, ?_⟩
  rw [hunload]
  refine ⟨rfl, rfl, ?_, ?_, rfl, rfl, rfl, ?_⟩
  · show (ModuleLoader.set_ref (ModuleLoader.bump_ref s.modules id) id
        (m.ref_count + 1 - 1)).lookup id = some m
    rw [lookup_set_ref_self, hlk]
    simp
  · intro j hj
    show (ModuleLoader.set_ref (ModuleLoader.bump_ref s.modules id) id
        (m.ref_count + 1 - 1)).lookup j = s.modules.lookup j
    rw [lookup_set_ref_other _ _ _ _ hj, lookup_bump_ref_other _ _ _ hj]
  · show (List.lookup (rust_replace name '-' '_')
        s.module_name_to_id).isSome = true
    rw [hreg]
    rfl

/-- Witness for C6: a loader with one registered module `m` (id 0). -/
theorem c6_repeat_load_then_unload_frame_witness :
    (c6_state.module_name_to_id.lookup (rust_replace "m" '-' '_') = some 0 ∧
     c6_state.modules.lookup 0 = some plain_mod ∧
     1 ≤ plain_mod.ref_count) ∧
    (ModuleLoader._load c2_env c6_state "m").1 = .ok 0 :=
  ⟨⟨rfl, rfl, by decide⟩,
   (c6_repeat_load_then_unload_frame c2_env c6_state "m" 0 plain_mod rfl rfl
     (by decide)).1⟩

end BP3D

namespace BP3D

/-- `load_lib` only reads `fs`/`file_bytes`/`os_open` from the environment,
never the self handle. -/
theorem load_lib_ignores_self (fs : String → Bool) (fb : String → List Nat)
    (oo : String → Option Library) (sl sl' : Option Library) (d : DepsMap)
    (n t : String) :
    load_lib ⟨fs, fb, oo, sl'⟩ d n t = load_lib ⟨fs, fb, oo, sl⟩ d n t := rfl

/-- `_load_scan` never consults the process-self handle: its result is the
same for any `self_lib`. -/
theorem load_scan_ignores_self (fs : String → Bool) (fb : String → List Nat)
    (oo : String → Option Library) (sl sl' : Option Library)
    (s : ModuleLoader) (name n2 n3 : String) :
    ∀ paths, ModuleLoader._load_scan ⟨fs, fb, oo, sl'⟩ s name n2 n3 paths =
      ModuleLoader._load_scan ⟨fs, fb, oo, sl⟩ s name n2 n3 paths := by
  intro paths
  induction paths with
  | nil => rfl
  | cons p rest ih =>
    unfold ModuleLoader._load_scan
    dsimp only
    by_cases h : (fs (p ++ "/" ++ n2) || fs (p ++ "/" ++ n3)) = true
    · rw [if_pos h, if_pos h, load_lib_ignores_self fs fb oo sl sl']
    · rw [if_neg h, if_neg h]
      exact ih

/-- `_load_scan` fails with `NotFound` when no search path holds either
candidate file, leaving the state untouched. -/
theorem load_scan_all_missing (env : Env) (s : ModuleLoader)
    (name n2 n3 : String) :
    ∀ paths, (∀ p ∈ paths, env.fs (p ++ "/" ++ n2) = false ∧
      env.fs (p ++ "/" ++ n3) = false) →
      ModuleLoader._load_scan env s name n2 n3 paths =
        (.error (.NotFound name), s) := by
  intro paths
  induction paths with
  | nil => intro _; rfl
  | cons p rest ih =>
    intro hfs
    obtain ⟨h1, h2⟩ := hfs p (List.mem_cons_self p rest)
    unfold ModuleLoader._load_scan
    rw [if_neg (by simp [h1, h2])]
    exact ih (fun q hq => hfs q (List.mem_cons_of_mem _ hq))

/-- C2 (amended): `load(name)` consults only the registered table and the
filesystem search paths. First conjunct: its outcome (result and state) is
entirely independent of the current-process symbol source (`open_self`) —
which only `load_self` uses — and of the builtin table, which sits untouched
in the state and is only read by `load_builtin`. Second conjunct: when the
name is unregistered and no configured search path holds `<name>.so` or
`lib<name>.so`, the call returns `NotFound(name)` unchanged — even if the
self or builtin sources could resolve the name (see the counterexample). -/
theorem c2_load_consults_only_registry_and_filesystem :
    (∀ (fs : String → Bool) (fb : String → List Nat)
       (oo : String → Option Library) (sl sl' : Option Library)
       (s : ModuleLoader) (name : String),
       ModuleLoader._load ⟨fs, fb, oo, sl'⟩ s name =
         ModuleLoader._load ⟨fs, fb, oo, sl⟩ s name) ∧
    (∀ (env : Env) (s : ModuleLoader) (name : String),
       s.module_name_to_id.lookup (rust_replace name '-' '_') = none →
       (∀ p ∈ s.paths,
         env.fs (p ++ "/" ++ (rust_replace name '-' '_' ++ "." ++ OS_EXT)) =
           false ∧
         env.fs (p ++ "/" ++
           ("lib" ++ rust_replace name '-' '_' ++ "." ++ OS_EXT)) = false) →
       ModuleLoader._load env s name =
         (.error (.NotFound (rust_replace name '-' '_')), s)) := by
  constructor
  · intro fs fb oo sl sl' s name
    unfold ModuleLoader._load
    dsimp only
    cases List.lookup (rust_replace name '-' '_') s.module_name_to_id with
    | some id => rfl
    | none => exact load_scan_ignores_self fs fb oo sl sl' s _ _ _ s.paths
  · intro env s name hreg hfs
    unfold ModuleLoader._load
    dsimp only
    rw [hreg]
    exact load_scan_all_missing env s _ _ _ s.paths hfs

/-- Witness for the amended C2 at a concrete unregistered name with no
search paths. -/
theorem c2_load_consults_only_registry_and_filesystem_witness :
    (c2_state.module_name_to_id.lookup (rust_replace "m" '-' '_') = none ∧
     (∀ p ∈ c2_state.paths,
       c2_env.fs (p ++ "/" ++ (rust_replace "m" '-' '_' ++ "." ++ OS_EXT)) =
         false ∧
       c2_env.fs (p ++ "/" ++
         ("lib" ++ rust_replace "m" '-' '_' ++ "." ++ OS_EXT)) = false)) ∧
    ModuleLoader._load c2_env c2_state "m" =
      (.error (.NotFound (rust_replace "m" '-' '_')), c2_state) :=
  ⟨⟨rfl, by intro p hp; simp [c2_state] at hp⟩,
   c2_load_consults_only_registry_and_filesystem.2 c2_env c2_state "m" rfl
     (by intro p hp; simp [c2_state] at hp)⟩

/-- C2 counterexample: with no search paths but module `m` available both as
a current-process descriptor symbol and in the builtin table, `load(m)`
still fails with `NotFound` while `load_self(m)` and `load_builtin(m)` both
succeed — `_load` never probes the self or builtin sources, so `NotFound`
does not mean all three sources failed. -/
theorem c2_counterexample :
    (ModuleLoader._load c2_env c2_state "m").1 = .error (.NotFound "m") ∧
    (ModuleLoader._load_self c2_env c2_state "m").1 = .ok 0 ∧
    (ModuleLoader._load_builtin c2_state "m").1 = .ok 0 :=
  ⟨by decide, by decide, by decide⟩

end BP3D

namespace BP3D

/-- The magic starts with the byte `'B'`. -/
theorem findIdx_b_header (x : List Nat) :
    (MOD_HEADER ++ x).findIdx? (fun b => b == 66) = some 0 := rfl

/-- A list none of whose elements satisfies the predicate has no found
index. -/
theorem findIdx_none_of_all {p : Nat → Bool} {l : List Nat}
    (h : ∀ x ∈ l, p x = false) : l.findIdx? p = none :=
  List.findIdx?_eq_none_iff.mpr (fun x hx => by rw [h x hx])

/-- Scanning one chunk of the shape `junk ++ descriptor ++ tail`, with no
`'B'` in the junk and no NUL inside the descriptor body: the scanner finds
the descriptor's `'B'`, accumulates up to its NUL, accepts it against the
magic and returns its parse. -/
theorem scan_slice_finds_descriptor (fuel : Nat) (junk body tail : List Nat)
    (hjunk : ∀ x ∈ junk, (x == 66) = false)
    (hbody : ∀ x ∈ body, (x == 0) = false) :
    scan_slice (fuel + 1) (junk ++ (MOD_HEADER ++ (body ++ ([0] ++ tail)))) [] =
      .done (parse_metadata (MOD_HEADER ++ (body ++ [0]))) := by
  have hhdr0 : ∀ x ∈ MOD_HEADER, (x == (0 : Nat)) = false := by decide
  have h1 : (junk ++ (MOD_HEADER ++ (body ++ ([0] ++ tail)))).findIdx?
      (fun b => b == 66) = some junk.length := by
    rw [List.findIdx?_append, findIdx_none_of_all hjunk, findIdx_b_header]
    simp
  have h2 : (junk ++ (MOD_HEADER ++ (body ++ ([0] ++ tail)))).drop
      junk.length = MOD_HEADER ++ (body ++ ([0] ++ tail)) :=
    List.drop_left junk _
  have h3 : (MOD_HEADER ++ (body ++ ([0] ++ tail))).findIdx?
      (fun b => b == 0) = some (MOD_HEADER.length + body.length) := by
    rw [List.findIdx?_append, findIdx_none_of_all hhdr0,
      List.findIdx?_append, findIdx_none_of_all hbody]
    simp [Nat.add_comm]
  have h4 : (MOD_HEADER ++ (body ++ ([0] ++ tail))).take
      (MOD_HEADER.length + body.length + 1) = MOD_HEADER ++ (body ++ [0]) := by
    rw [List.take_append_eq_append_take,
      List.take_of_length_le (l := MOD_HEADER) (by omega)]
    congr 1
    rw [List.take_append_eq_append_take]
    have : MOD_HEADER.length + body.length + 1 - MOD_HEADER.length =
        body.length + 1 := by omega
    rw [this, List.take_of_length_le (l := body) (by omega)]
    congr 1
    have : body.length + 1 - body.length = 1 := by omega
    rw [this]
    rfl
  have h5 : (MOD_HEADER ++ (body ++ [0])).getLast? = some 0 := by
    simp
  have h6 : MOD_HEADER.isPrefixOf (MOD_HEADER ++ (body ++ [0])) = true :=
    List.isPrefixOf_iff_prefix.mpr (List.prefix_append _ _)
  unfold scan_slice
  rw [h1]
  simp only [h2, h3, Option.getD_some, List.nil_append, h4, h5, h6, if_true]

end BP3D

namespace BP3D

/-- `lengthTRAux` accumulates the length. -/
theorem length_tr_aux_eq (l : List Nat) : ∀ n, l.lengthTRAux n = l.length + n := by
  induction l with
  | nil => intro n; simp [List.lengthTRAux]
  | cons a t ih =>
    intro n
    simp [List.lengthTRAux, ih, List.length_cons]
    omega

/-- `lengthTR` agrees with `length`. -/
theorem length_tr_eq (l : List Nat) : l.lengthTR = l.length := by
  simpa using length_tr_aux_eq l 0

/-- A file shaped `junk ++ descriptor ++ tail` with no `'B'` in the junk and
no NUL in the descriptor body, whose descriptor (junk, magic, body and NUL)
lies wholly inside the first 8192-byte chunk: `load_metadata` returns the
parse of the descriptor. The tail is unconstrained — whatever part of it (and
of the zero padding left in the buffer on a short read) lands in the first
chunk is absorbed into the scanned tail, and the scan returns before any
further chunk is read. -/
theorem load_metadata_first_chunk (junk body tail : List Nat)
    (hjunk : ∀ x ∈ junk, (x == 66) = false)
    (hbody : ∀ x ∈ body, (x == 0) = false)
    (hlen : junk.length + (MOD_HEADER.length + (body.length + 1)) ≤ BUF_SIZE) :
    load_metadata (junk ++ (MOD_HEADER ++ (body ++ ([0] ++ tail)))) =
      parse_metadata (MOD_HEADER ++ (body ++ [0])) := by
  set file := junk ++ (MOD_HEADER ++ (body ++ ([0] ++ tail))) with hfile
  have hflen : file.length =
      junk.length + (MOD_HEADER.length + (body.length + (1 + tail.length))) := by
    simp [hfile, List.length_append]
    omega
  have hre : file = (junk ++ (MOD_HEADER ++ (body ++ [0]))) ++ tail := by
    rw [hfile]
    simp [List.append_assoc]
  have hDlen : (junk ++ (MOD_HEADER ++ (body ++ [0]))).length =
      junk.length + (MOD_HEADER.length + (body.length + 1)) := by
    simp [List.length_append]
  have hne : file.isEmpty = false := by
    simp [List.isEmpty_iff]
    intro he
    rw [he] at hflen
    simp at hflen
    omega
  set n := min BUF_SIZE file.length with hdefn
  have hn : min BUF_SIZE file.lengthTR = n := by
    rw [length_tr_eq, hdefn]
  have htake : file.take n = (junk ++ (MOD_HEADER ++ (body ++ [0]))) ++
      tail.take (n - (junk.length + (MOD_HEADER.length + (body.length + 1)))) := by
    rw [hre, List.take_append_eq_append_take,
      List.take_of_length_le (by rw [hDlen]; omega), hDlen]
  unfold load_metadata
  rw [read_loop, if_neg (by rw [hne]; simp), hn]
  dsimp only
  rw [htake, List.drop_replicate]
  unfold scan_chunk
  simp only [List.append_assoc]
  rw [scan_slice_finds_descriptor _ junk body _ hjunk hbody]

end BP3D

namespace BP3D

/-- A chunk without the byte `'B'` scans to a carry of the accumulator
unchanged. -/
theorem scan_slice_no_b (fuel : Nat) (slice v : List Nat)
    (h : ∀ x ∈ slice, (x == 66) = false) :
    scan_slice (fuel + 1) slice v = .carry v := by
  unfold scan_slice
  rw [findIdx_none_of_all h]

/-- A chunk of the shape `junk ++ 'B'-run` where no NUL follows the `'B'`:
the whole run from the `'B'` is accumulated and carried to the next chunk. -/
theorem scan_slice_no_nul_after_b (fuel : Nat) (junk rest v : List Nat)
    (hjunk : ∀ x ∈ junk, (x == 66) = false)
    (hnonul : ∀ x ∈ 66 :: rest, (x == 0) = false) :
    scan_slice (fuel + 1) (junk ++ (66 :: rest)) v = .carry (v ++ (66 :: rest)) := by
  have h1 : (junk ++ (66 :: rest)).findIdx? (fun b => b == 66) =
      some junk.length := by
    rw [List.findIdx?_append, findIdx_none_of_all hjunk]
    simp [List.findIdx?_cons]
  have h2 : (junk ++ (66 :: rest)).drop junk.length = 66 :: rest :=
    List.drop_left junk _
  have h3 : (66 :: rest).findIdx? (fun b => b == 0) = none :=
    findIdx_none_of_all hnonul
  have h4 : (66 :: rest).take ((66 :: rest).lengthTR - 1 + 1) = 66 :: rest := by
    rw [length_tr_eq]
    exact List.take_of_length_le (by simp)
  have h5 : (v ++ (66 :: rest)).getLast? ≠ some 0 := by
    have hmem := List.getLast_mem (l := 66 :: rest) (by simp)
    have hlast : (66 :: rest).getLast? = some ((66 :: rest).getLast (by simp)) :=
      List.getLast?_eq_getLast _ _
    have hne : (66 :: rest).getLast (by simp) ≠ 0 := by
      have := hnonul _ hmem
      simpa using this
    rw [List.getLast?_append_cons, hlast]
    simpa using hne
  unfold scan_slice
  rw [h1]
  simp only [h2, h3, Option.getD_none, h4, if_neg h5]

/-- A chunk starting with a `'B'`-run that is NUL-terminated but does not
start with the magic: the candidate is discarded and scanning resumes right
after its NUL. -/
theorem scan_slice_bad_candidate (fuel : Nat) (mid after v : List Nat)
    (hmid : ∀ x ∈ 66 :: mid, (x == 0) = false)
    (hpre : MOD_HEADER.isPrefixOf (v ++ ((66 :: mid) ++ [0])) = false) :
    scan_slice (fuel + 1) ((66 :: mid) ++ ([0] ++ after)) v =
      scan_slice fuel after [] := by
  have h1 : ((66 :: mid) ++ ([0] ++ after)).findIdx? (fun b => b == 66) =
      some 0 := by
    simp [List.findIdx?_cons]
  have h3 : ((66 :: mid) ++ ([0] ++ after)).findIdx? (fun b => b == 0) =
      some (mid.length + 1) := by
    rw [List.findIdx?_append, findIdx_none_of_all hmid]
    simp [List.findIdx?_cons, List.length_cons, Nat.add_comm]
  have h4 : ((66 :: mid) ++ ([0] ++ after)).take (mid.length + 1 + 1) =
      (66 :: mid) ++ [0] := by
    rw [List.take_append_eq_append_take,
      List.take_of_length_le (l := 66 :: mid) (by simp)]
    congr 1
    have : mid.length + 1 + 1 - (66 :: mid).length = 1 := by simp
    rw [this]
    rfl
  have h5 : (v ++ ((66 :: mid) ++ [0])).getLast? = some 0 := by
    rw [← List.append_assoc, List.getLast?_concat]
  have h6 : ((66 :: mid) ++ ([0] ++ after)).drop (0 + (mid.length + 1) + 1) =
      after := by
    rw [List.drop_append_eq_append_drop, List.drop_eq_nil_of_le (by simp)]
    have : 0 + (mid.length + 1) + 1 - (66 :: mid).length = 1 := by simp
    rw [this]
    rfl
  conv_lhs => unfold scan_slice
  rw [h1]
  simp only [List.drop_zero, h3, Option.getD_some, h4, h5, if_pos rfl, hpre,
    Bool.false_eq_true, if_false, h6, if_true]

end BP3D

namespace BP3D

/-- The stray-`B` file fills a single chunk (with zero padding). -/
theorem c4_fileA_scan :
    scan_chunk (c4_fileA ++ List.replicate 8156 0) [] = .carry [] := by
  have hb2len : (c4_fileA ++ List.replicate 8156 (0:Nat)).lengthTR = 8191 + 1 := by
    rw [length_tr_eq, List.length_append, List.length_replicate]
    rfl
  have hb2 : c4_fileA ++ List.replicate 8156 (0:Nat) =
      (66 :: c4_midA) ++ ([0] ++ List.replicate 8156 0) := by
    rw [show c4_fileA = (66 :: c4_midA) ++ [0] from rfl, List.append_assoc]
  unfold scan_chunk
  rw [hb2len, hb2]
  rw [scan_slice_bad_candidate _ _ _ _ (by decide) (by decide)]
  rw [show (8191:Nat) = 8190 + 1 from rfl, scan_slice_no_b]
  intro x hx
  rw [List.eq_of_mem_replicate hx]
  rfl

/-- The stray `'B'` with no NUL before the descriptor swallows the descriptor:
the accumulated run `BX<magic><body>NUL` fails the magic-prefix check, is
discarded whole, and nothing is left to scan. -/
theorem c4_fileA_missing : load_metadata c4_fileA = .error .MissingMetadata := by
  have hlen : c4_fileA.lengthTR = 36 := by
    rw [length_tr_eq]
    rfl
  unfold load_metadata
  rw [read_loop, if_neg (by decide : ¬ c4_fileA.isEmpty = true), hlen,
    show BUF_SIZE ⊓ 36 = 36 from by norm_num [BUF_SIZE]]
  dsimp only
  rw [show List.take 36 c4_fileA = c4_fileA from by decide,
    List.drop_replicate, show BUF_SIZE - 36 = 8156 from by norm_num [BUF_SIZE],
    show List.drop 36 c4_fileA = ([] : List Nat) from by decide,
    c4_fileA_scan]
  dsimp only
  rw [show (36:Nat) = 35 + 1 from rfl, read_loop,
    if_pos (by decide : ([] : List Nat).isEmpty = true)]

end BP3D

namespace BP3D

/-- No filler byte `'A'` is a `'B'`. -/
theorem c4_filler_not_b (k : Nat) :
    ∀ x ∈ List.replicate k (65 : Nat), (x == 66) = false := by
  intro x hx
  rw [List.eq_of_mem_replicate hx]
  rfl

/-- First chunk of the straddle file: the filler then the first two magic
bytes `BP`; no NUL follows the `'B'`, so `BP` is carried. -/
theorem c4_fileB_scan1 :
    scan_chunk (List.replicate 8190 65 ++ [66, 80]) [] = .carry [66, 80] := by
  have hflen : (List.replicate 8190 (65:Nat) ++ [66, 80]).lengthTR = 8191 + 1 := by
    rw [length_tr_eq, List.length_append, List.length_replicate]
    rfl
  unfold scan_chunk
  rw [hflen, scan_slice_no_nul_after_b _ _ _ _ (c4_filler_not_b 8190) (by decide)]
  rfl

/-- Second chunk of the straddle file: the descriptor's remainder in front,
stale filler (ending in the stale bytes `BP`) behind. The only `'B'` in the
chunk is the stale one, its run has no NUL, so the carried accumulator is
extended with stale bytes and the real descriptor is never seen. -/
theorem c4_fileB_scan2 :
    scan_chunk (List.drop 2 c4_descB ++ (List.replicate 8158 65 ++ [66, 80]))
      [66, 80] = .carry ([66, 80] ++ (66 :: [80])) := by
  have hflen : (List.drop 2 c4_descB ++
      (List.replicate 8158 (65:Nat) ++ [66, 80])).lengthTR = 8191 + 1 := by
    rw [length_tr_eq, List.length_append, List.length_append,
      List.length_replicate, show (List.drop 2 c4_descB).length = 32 from by decide]
    rfl
  have hj : ∀ x ∈ List.drop 2 c4_descB ++ List.replicate 8158 (65:Nat),
      (x == 66) = false := by
    intro x hx
    have hb : ((List.drop 2 c4_descB).all fun y => ! (y == 66)) = true := by
      decide
    rcases List.mem_append.mp hx with h | h
    · simpa using List.all_eq_true.mp hb x h
    · rw [List.eq_of_mem_replicate h]
      rfl
  unfold scan_chunk
  rw [hflen, ← List.append_assoc, scan_slice_no_nul_after_b _ _ _ _ hj (by decide)]

/-- The magic prefix straddling the 8192-byte chunk boundary loses the
descriptor: `load_metadata` reports `MissingMetadata` although the file
contains a single well-formed descriptor. -/
theorem c4_fileB_missing : load_metadata c4_fileB = .error .MissingMetadata := by
  have hdlen : c4_descB.length = 34 := by decide
  have hlenB : c4_fileB.lengthTR = 8224 := by
    rw [length_tr_eq, show c4_fileB = List.replicate 8190 65 ++ c4_descB from rfl,
      List.length_append, List.length_replicate, hdlen]
  have hfblen : c4_fileB.length = 8224 := by
    rw [← length_tr_eq, hlenB]
  have hne : ¬ c4_fileB.isEmpty = true := by
    rw [List.isEmpty_iff]
    intro h
    rw [h] at hfblen
    simp at hfblen
  have htake : List.take 8192 c4_fileB = List.replicate 8190 65 ++ [66, 80] := by
    rw [show c4_fileB = List.replicate 8190 65 ++ c4_descB from rfl,
      List.take_append_eq_append_take,
      List.take_of_length_le (by rw [List.length_replicate]; omega),
      List.length_replicate]
    congr 1
  have hdrop : List.drop 8192 c4_fileB = List.drop 2 c4_descB := by
    rw [show c4_fileB = List.replicate 8190 65 ++ c4_descB from rfl,
      List.drop_append_eq_append_drop,
      List.drop_eq_nil_of_le (by rw [List.length_replicate]; omega),
      List.length_replicate, List.nil_append]
  have hbdrop : List.drop 32 (List.replicate 8190 (65:Nat) ++ [66, 80]) =
      List.replicate 8158 65 ++ [66, 80] := by
    rw [List.drop_append_eq_append_drop, List.drop_replicate, List.length_replicate]
    norm_num
  unfold load_metadata
  rw [read_loop, if_neg hne, hlenB,
    show BUF_SIZE ⊓ 8224 = 8192 from by norm_num [BUF_SIZE]]
  dsimp only
  rw [htake, List.drop_replicate,
    show BUF_SIZE - 8192 = 0 from by norm_num [BUF_SIZE]]
  rw [show List.replicate 0 (0:Nat) = [] from rfl, List.append_nil, hdrop,
    c4_fileB_scan1]
  dsimp only
  rw [show (8224:Nat) = 8223 + 1 from rfl, read_loop,
    if_neg (by decide : ¬ (List.drop 2 c4_descB).isEmpty = true),
    show (List.drop 2 c4_descB).lengthTR = 32 from by decide,
    show BUF_SIZE ⊓ 32 = 32 from by norm_num [BUF_SIZE]]
  dsimp only
  rw [show List.take 32 (List.drop 2 c4_descB) = List.drop 2 c4_descB from by decide,
    hbdrop, c4_fileB_scan2]
  dsimp only
  rw [show List.drop 32 (List.drop 2 c4_descB) = ([] : List Nat) from by decide,
    show (8223:Nat) = 8222 + 1 from rfl, read_loop,
    if_pos (by decide : ([] : List Nat).isEmpty = true)]

end BP3D

namespace BP3D

/-- C4 (corrected): `load_metadata` returns the parse of the embedded
descriptor when the whole descriptor lies inside the first 8192-byte chunk and
no byte `'B'` precedes its magic — the guarantee does not extend to a stray
`'B'` before the descriptor or to a descriptor straddling the chunk boundary
(see the counterexample). -/
theorem c4_first_chunk_descriptor (junk body tail : List Nat)
    (hjunk : ∀ x ∈ junk, (x == 66) = false)
    (hbody : ∀ x ∈ body, (x == 0) = false)
    (hlen : junk.length + (MOD_HEADER.length + (body.length + 1)) ≤ BUF_SIZE) :
    load_metadata (junk ++ (MOD_HEADER ++ (body ++ ([0] ++ tail)))) =
      parse_metadata (MOD_HEADER ++ (body ++ [0])) :=
  load_metadata_first_chunk junk body tail hjunk hbody hlen

/-- C4 witness: a descriptor at the very start of a file whose trailing bytes
run well past the first 8192-byte chunk is parsed. -/
theorem c4_first_chunk_descriptor_witness :
    (∀ x ∈ ([] : List Nat), (x == 66) = false) ∧
    (∀ x ∈ c4_bodyA, (x == 0) = false) ∧
    (List.length ([] : List Nat) + (MOD_HEADER.length + (c4_bodyA.length + 1))
      ≤ BUF_SIZE) ∧
    load_metadata ([] ++ (MOD_HEADER ++ (c4_bodyA ++
        ([0] ++ List.replicate 9000 65)))) =
      parse_metadata (MOD_HEADER ++ (c4_bodyA ++ [0])) :=
  ⟨by decide, by decide, by decide,
    c4_first_chunk_descriptor [] c4_bodyA (List.replicate 9000 65)
      (by decide) (by decide) (by decide)⟩

/-- C4 counterexample: both counterexample files contain exactly one
well-formed NUL-terminated descriptor (whose stand-alone parse succeeds), yet
`load_metadata` reports `MissingMetadata` on both — a stray `'B'` with no NUL
before the magic swallows the descriptor, and a magic prefix straddling the
8192-byte chunk boundary is lost. -/
theorem c4_counterexample :
    parse_metadata c4_descB = .ok [("NAME", "a"), ("TYPE", "MODULE")] ∧
    c4_fileA = strBytes "BX" ++ c4_descB ∧
    load_metadata c4_fileA = .error .MissingMetadata ∧
    c4_fileB = List.replicate 8190 65 ++ c4_descB ∧
    load_metadata c4_fileB = .error .MissingMetadata :=
  ⟨by decide, by decide, c4_fileA_missing, rfl, c4_fileB_missing⟩

end BP3D

namespace BP3D

/-- Streaming the managed descriptor file reduces to parsing its descriptor:
the file is one well-placed descriptor in the first chunk. -/
theorem c10_load_metadata :
    load_metadata rust_file = parse_metadata (MOD_HEADER ++ (rust_body ++ [0])) := by
  have hb : ∀ x ∈ rust_body, (x == (0:Nat)) = false := by decide
  have h := load_metadata_first_chunk [] rust_body [] (by simp) hb (by decide)
  simpa [rust_file] using h

/-- The managed descriptor parses to `c10_md`. -/
theorem c10_parse : parse_metadata (MOD_HEADER ++ (rust_body ++ [0])) = .ok c10_md := by
  decide

/-- Negotiating `c10_md` against the empty map succeeds and commits. -/
theorem c10_check : check_metadata c10_md DepsMap.new = (.ok (), c10_committed) := by
  decide

/-- `load_lib` on the managed descriptor: metadata accepted and committed,
then the OS refuses to open the library — `Io` with the committed map. -/
theorem c10_load_lib (t : String) :
    load_lib c10_env DepsMap.new "m" t = (.error .Io, c10_committed) := by
  unfold load_lib
  rw [show c10_env.file_bytes t = rust_file from rfl, c10_load_metadata, c10_parse]
  dsimp only
  rw [c10_check]
  rfl

end BP3D

namespace BP3D

/-- C10: a failed load is not atomic with respect to the `DepsMap`. The
candidate `m` (declaring dependency `a = 1.0.0`) passes every compatibility
check, its entries are committed, and only then does opening the OS library
fail: `load(m)` returns `Io`, yet the final state keeps `m`'s dependency
table, version and reverse index committed while no module is registered
under `m`. -/
theorem c10_failed_load_commits_deps :
    ModuleLoader._load c10_env c10_state "m" =
      (.error .Io, { c10_state with deps := c10_committed }) ∧
    c10_committed.deps_by_module.lookup "m" =
      some [("a", ⟨"1.0.0", [], []⟩)] ∧
    c10_committed.module_version.lookup "m" = some "1.0.0" ∧
    c10_committed.module_by_dep.lookup "a" = some ["m"] ∧
    ({ c10_state with deps := c10_committed }).module_name_to_id.lookup "m" =
      none ∧
    ({ c10_state with deps := c10_committed }).modules = [] := by
  refine ⟨?_, by decide, by decide, by decide, by decide, rfl⟩
  unfold ModuleLoader._load
  dsimp only
  rw [show rust_replace "m" '-' '_' = "m" from by decide,
    show List.lookup "m" c10_state.module_name_to_id = none from rfl]
  dsimp only
  rw [show c10_state.paths = ["/p"] from rfl]
  unfold ModuleLoader._load_scan
  dsimp only
  rw [if_pos (by decide), show c10_state.deps = DepsMap.new from rfl,
    c10_load_lib]
  rfl

end BP3D

namespace BP3D

/-- Streaming the plain descriptor file yields its parsed metadata. -/
theorem c3_load_metadata : load_metadata m_file = .ok c3_md := by
  have hbody : ∀ x ∈ plain_body, (x == (0:Nat)) = false := by decide
  have h := load_metadata_first_chunk [] plain_body [] (by simp) hbody (by decide)
  have hparse : parse_metadata (MOD_HEADER ++ (plain_body ++ [0])) = .ok c3_md := by
    decide
  rw [← hparse]
  simpa [m_file] using h

/-- Under `c3_env` every `load_lib` call for `m` succeeds with the plain
record and leaves the `DepsMap` unchanged (unmanaged module: negotiation is
a no-op). -/
theorem c3_load_lib (d : DepsMap) (t : String) :
    load_lib c3_env d "m" t = (.ok (ModuleRec.new empty_lib c3_md), d) := by
  unfold load_lib
  rw [show c3_env.file_bytes t = m_file from rfl, c3_load_metadata]
  rfl

/-- A fresh (unregistered) load of `m` under `c3_env` succeeds and registers
a single record with `ref_count = 1` under a fresh id. -/
theorem c3_fresh_load (s : ModuleLoader) (hp : s.paths = ["/p"])
    (hreg : s.module_name_to_id.lookup "m" = none) :
    ModuleLoader._load c3_env s "m" =
      (.ok s.last_module_id,
       { s with
         last_module_id := s.last_module_id + 1
         module_name_to_id := ("m", s.last_module_id) :: s.module_name_to_id
         modules := (s.last_module_id,
           { ModuleRec.new empty_lib c3_md with id := s.last_module_id }) ::
             s.modules }) := by
  unfold ModuleLoader._load
  dsimp only
  rw [show rust_replace "m" '-' '_' = "m" from by decide, hreg]
  dsimp only
  rw [hp]
  unfold ModuleLoader._load_scan
  dsimp only
  rw [if_pos (by decide), c3_load_lib]
  dsimp only
  unfold ModuleLoader.register_os_module
  dsimp only
  rw [hp]

end BP3D

namespace BP3D

/-- C3 counterexample. First sequence: `[load, unload, unload, load]` has two
(successful) loads and two unload calls, yet `m` ends registered — the claim
requires unregistered at N = M. Second sequence: `[load, unload, load,
unload]` has every call effective (loads succeed, unloads hit a registered
name), N = M, and finalizes `m` twice, not exactly once. -/
theorem c3_counterexample :
    ((([Op.load, .unload, .unload, .load] : List Op).count .load =
      ([Op.load, .unload, .unload, .load] : List Op).count .unload) ∧
     loads_ok c3_env "m" [Op.load, .unload, .unload, .load] c3_state = true ∧
     registered (run_ops c3_env "m" [Op.load, .unload, .unload, .load] c3_state)
       "m" = true) ∧
    ((([Op.load, .unload, .load, .unload] : List Op).count .load =
      ([Op.load, .unload, .load, .unload] : List Op).count .unload) ∧
     ops_effective c3_env "m" [Op.load, .unload, .load, .unload] c3_state = true ∧
     fin_count c3_env "m" [Op.load, .unload, .load, .unload] c3_state = 2) := by
  have hl0 : ModuleLoader._load c3_env c3_state "m" = (.ok 0, c3_s1) :=
    (c3_fresh_load c3_state rfl rfl).trans rfl
  have hl2 : ModuleLoader._load c3_env c3_s2 "m" = (.ok 1, c3_s3) :=
    (c3_fresh_load c3_s2 rfl rfl).trans rfl
  have hu1 : ModuleLoader._unload c3_s1 "m" = (.ok (), c3_s2) := rfl
  have hu2 : ModuleLoader._unload c3_s2 "m" = (.error (.NotFound "m"), c3_s2) := rfl
  have hu3 : ModuleLoader._unload c3_s3 "m" =
      (.ok (), ⟨["/p"], [], [], DepsMap.new, [], [], 2⟩) := rfl
  refine ⟨⟨by decide, ?_, ?_⟩, by decide, ?_, ?_⟩ <;>
    simp only [run_ops, loads_ok, ops_effective, fin_count, hl0, hu1, hu2, hl2,
      hu3] <;>
    decide

end BP3D

namespace BP3D

/-- `HashMap::remove` really removes the binding: looking the name up in the
filtered index yields nothing. -/
theorem lookup_remove_name_self (l : List (String × Nat)) (name : String) :
    List.lookup name (ModuleLoader.remove_name l name) = none := by
  induction l with
  | nil => rfl
  | cons p rest ih =>
    unfold ModuleLoader.remove_name at ih ⊢
    by_cases h : p.1 = name
    · simpa [List.filter_cons, h] using ih
    · have hb : (p.1 != name) = true := by simpa using h
      rw [List.filter_cons, if_pos hb, List.lookup_cons]
      have : (name == p.1) = false := by
        simp [BEq.comm]
        exact fun he => h he.symm
      rw [this]
      exact ih

/-- One load step under the invariant: the call succeeds and the balance
rises by one. -/
theorem c3_step_load (s : ModuleLoader) (b : Nat) (hinv : c3_inv s b) :
    (ModuleLoader._load c3_env s "m").1.isOk = true ∧
    c3_inv (ModuleLoader._load c3_env s "m").2 (b + 1) := by
  obtain ⟨hp, h0, hpos⟩ := hinv
  rcases Nat.eq_zero_or_pos b with hb | hb
  · subst hb
    rw [c3_fresh_load s hp (h0 rfl)]
    refine ⟨rfl, by simpa using hp, by simp, ?_⟩
    intro _
    exact ⟨s.last_module_id,
      { ModuleRec.new empty_lib c3_md with id := s.last_module_id },
      by simp [List.lookup], by simp [List.lookup], rfl⟩
  · obtain ⟨id, m, hidx, hmod, hrc⟩ := hpos hb
    unfold ModuleLoader._load
    dsimp only
    rw [show rust_replace "m" '-' '_' = "m" from by decide, hidx]
    dsimp only
    rw [hmod]
    refine ⟨rfl, hp, by simp, ?_⟩
    intro _
    refine ⟨id, { m with ref_count := m.ref_count + 1 }, hidx, ?_, by rw [hrc]⟩
    rw [lookup_bump_ref_self, hmod]
    rfl

/-- One unload step under the invariant with positive balance: the name is
registered before the call, the balance drops by one, and the name stays
registered exactly when the balance was above one. -/
theorem c3_step_unload (s : ModuleLoader) (b : Nat) (hb : 0 < b)
    (hinv : c3_inv s b) :
    registered s "m" = true ∧
    c3_inv (ModuleLoader._unload s "m").2 (b - 1) ∧
    registered (ModuleLoader._unload s "m").2 "m" = decide (1 < b) := by
  obtain ⟨hp, h0, hpos⟩ := hinv
  obtain ⟨id, m, hidx, hmod, hrc⟩ := hpos hb
  have hname : rust_replace "m" '-' '_' = "m" := by decide
  have hreg : registered s "m" = true := by
    unfold registered
    rw [hname, hidx]
    rfl
  unfold ModuleLoader._unload
  dsimp only
  rw [hname, hidx]
  dsimp only
  rw [hmod]
  dsimp only
  by_cases h1 : b = 1
  · subst h1
    rw [hrc]
    rw [if_pos rfl]
    refine ⟨hreg, ⟨hp, ?_, ?_⟩, ?_⟩
    · intro _
      exact lookup_remove_name_self s.module_name_to_id "m"
    · intro h
      simp at h
    · unfold registered
      rw [hname, lookup_remove_name_self]
      rfl
  · have h2 : 1 < b := by omega
    rw [hrc, if_neg (by omega)]
    refine ⟨hreg, ⟨hp, by intro h; omega, ?_⟩, ?_⟩
    · intro _
      refine ⟨id, { m with ref_count := b - 1 }, hidx, ?_, rfl⟩
      rw [lookup_set_ref_self, hmod]
      rfl
    · unfold registered
      rw [hname]
      dsimp only
      rw [hidx]
      simp [h2]

end BP3D

namespace BP3D

/-- A balance that starts positive, stays positive at every proper prefix and
reaches zero exactly at the end crosses zero exactly once. -/
theorem zc_aux (ops : List Op) : ∀ b : Nat, 0 < b →
    (∀ k, k < ops.length →
      (ops.take k).count Op.unload < b + (ops.take k).count Op.load) →
    b + ops.count Op.load = ops.count Op.unload →
    zero_crossings b ops = 1 := by
  induction ops with
  | nil =>
    intro b hb _ hend
    simp at hend
    omega
  | cons o r ih =>
    intro b hb hpre hend
    cases o with
    | load =>
      show zero_crossings (b + 1) r = 1
      apply ih (b + 1) (by omega)
      · intro k hk
        have h := hpre (k + 1) (by simpa using Nat.succ_lt_succ hk)
        simp [List.take_succ_cons, List.count_cons] at h
        simp [List.count_cons]
        omega
      · simp [List.count_cons] at hend
        omega
    | unload =>
      match r with
      | [] =>
        have hb1 : b = 1 := by
          simp [List.count_cons] at hend
          omega
        subst hb1
        rfl
      | o2 :: r2 =>
        have hgt : 1 < b := by
          have h := hpre 1 (by simp)
          simp [List.count_cons] at h
          omega
        show (if b = 1 then 1 else 0) + zero_crossings (b - 1) (o2 :: r2) = 1
        rw [if_neg (by omega), Nat.zero_add]
        apply ih (b - 1) (by omega)
        · intro k hk
          have h := hpre (k + 1) (by simpa using Nat.succ_lt_succ hk)
          simp [List.take_succ_cons, List.count_cons] at h
          simp [List.count_cons]
          omega
        · simp [List.count_cons] at hend ⊢
          omega

/-- From balance zero: when every proper non-empty prefix holds strictly more
loads than unloads and the totals agree, the zero crossing is unique. -/
theorem zc_start (ops : List Op) (hne : ops ≠ [])
    (hpre : ∀ k, 0 < k → k < ops.length →
      (ops.take k).count Op.unload < (ops.take k).count Op.load)
    (heq : ops.count Op.load = ops.count Op.unload) :
    zero_crossings 0 ops = 1 := by
  match ops, hne with
  | o :: r, _ =>
    cases o with
    | unload =>
      exfalso
      match r with
      | [] =>
        simp [List.count_cons] at heq
      | o2 :: r2 =>
        have h := hpre 1 (by omega) (by simp)
        simp [List.count_cons] at h
    | load =>
      show zero_crossings 1 r = 1
      apply zc_aux r 1 (by omega)
      · intro k hk
        rcases Nat.eq_zero_or_pos k with h0 | h0
        · subst h0
          simp
        · have h := hpre (k + 1) (by omega) (by simpa using Nat.succ_lt_succ hk)
          simp [List.take_succ_cons, List.count_cons] at h
          omega
      · simp [List.count_cons] at heq
        omega

end BP3D

namespace BP3D

/-- Running an effective sequence from a state matching balance `b` lands in
a state matching `b + loads - unloads`, the unload count never overtakes the
balance, and the number of finalizations is the number of zero crossings of
the balance. -/
theorem c3_run (ops : List Op) :
    ∀ (s : ModuleLoader) (b : Nat), c3_inv s b →
      ops_effective c3_env "m" ops s = true →
      c3_inv (run_ops c3_env "m" ops s)
        (b + ops.count Op.load - ops.count Op.unload) ∧
      ops.count Op.unload ≤ b + ops.count Op.load ∧
      fin_count c3_env "m" ops s = zero_crossings b ops := by
  induction ops with
  | nil =>
    intro s b hinv _
    exact ⟨by simpa using hinv, by simp, rfl⟩
  | cons o r ih =>
    intro s b hinv heff
    cases o with
    | load =>
      rw [show ops_effective c3_env "m" (Op.load :: r) s =
        ((ModuleLoader._load c3_env s "m").1.isOk &&
          ops_effective c3_env "m" r (ModuleLoader._load c3_env s "m").2)
        from rfl, Bool.and_eq_true] at heff
      obtain ⟨hok, hrest⟩ := heff
      have hstep := c3_step_load s b hinv
      have h := ih (ModuleLoader._load c3_env s "m").2 (b + 1) hstep.2 hrest
      have hidxeq : b + (Op.load :: r).count Op.load -
          (Op.load :: r).count Op.unload =
          (b + 1) + r.count Op.load - r.count Op.unload := by
        simp [List.count_cons]
        omega
      refine ⟨?_, ?_, ?_⟩
      · rw [hidxeq]
        exact h.1
      · have := h.2.1
        simp [List.count_cons]
        omega
      · show fin_count c3_env "m" r (ModuleLoader._load c3_env s "m").2 =
          zero_crossings (b + 1) r
        exact h.2.2
    | unload =>
      rw [show ops_effective c3_env "m" (Op.unload :: r) s =
        (registered s "m" &&
          ops_effective c3_env "m" r (ModuleLoader._unload s "m").2)
        from rfl, Bool.and_eq_true] at heff
      obtain ⟨hregb, hrest⟩ := heff
      have hb : 0 < b := by
        rcases Nat.eq_zero_or_pos b with h0 | h0
        · exfalso
          have hn := hinv.2.1 h0
          unfold registered at hregb
          rw [show rust_replace "m" '-' '_' = "m" from by decide, hn] at hregb
          simp at hregb
        · exact h0
      have hstep := c3_step_unload s b hb hinv
      have h := ih (ModuleLoader._unload s "m").2 (b - 1) hstep.2.1 hrest
      have hidxeq : b + (Op.unload :: r).count Op.load -
          (Op.unload :: r).count Op.unload =
          (b - 1) + r.count Op.load - r.count Op.unload := by
        simp [List.count_cons]
        omega
      refine ⟨?_, ?_, ?_⟩
      · rw [hidxeq]
        exact h.1
      · have := h.2.1
        simp [List.count_cons]
        omega
      · show (if registered s "m" &&
            !(registered (ModuleLoader._unload s "m").2 "m") then 1 else 0) +
            fin_count c3_env "m" r (ModuleLoader._unload s "m").2 =
          (if b = 1 then 1 else 0) + zero_crossings (b - 1) r
        rw [hstep.1, hstep.2.2, h.2.2]
        by_cases h1 : b = 1
        · subst h1
          rfl
        · have : decide (1 < b) = true := decide_eq_true (by omega)
          rw [this, if_neg h1]
          rfl

end BP3D

namespace BP3D

/-- C3 (corrected): reference-count symmetry for effective sequences. From an
unregistered start, after any sequence whose loads all succeed and whose
unloads all hit a registered name, `m` stays registered iff the loads
strictly outnumber the unloads; and with equal counts the module is finalized
exactly once only under the extra hypothesis that every proper non-empty
prefix keeps strictly more loads than unloads (without it the module can be
finalized and re-loaded mid-sequence — see the counterexample, which also
shows the original claim's count-only reading fails for sequences whose
unload calls are not all effective). -/
theorem c3_refcount_symmetry (ops : List Op) (s : ModuleLoader)
    (hinv : c3_inv s 0)
    (heff : ops_effective c3_env "m" ops s = true) :
    (registered (run_ops c3_env "m" ops s) "m" = true ↔
      ops.count Op.unload < ops.count Op.load) ∧
    (ops.count Op.load = ops.count Op.unload → ops ≠ [] →
      (∀ k, 0 < k → k < ops.length →
        (ops.take k).count Op.unload < (ops.take k).count Op.load) →
      fin_count c3_env "m" ops s = 1) := by
  obtain ⟨hinv', hle, hfin⟩ := c3_run ops s 0 hinv heff
  constructor
  · constructor
    · intro hregT
      by_contra hnot
      push_neg at hnot
      have hb0 : 0 + ops.count Op.load - ops.count Op.unload = 0 := by omega
      rw [hb0] at hinv'
      have hn := hinv'.2.1 rfl
      unfold registered at hregT
      rw [show rust_replace "m" '-' '_' = "m" from by decide, hn] at hregT
      simp at hregT
    · intro hlt
      have hbpos : 0 < 0 + ops.count Op.load - ops.count Op.unload := by omega
      obtain ⟨id, m, hidx, _, _⟩ := hinv'.2.2 hbpos
      unfold registered
      rw [show rust_replace "m" '-' '_' = "m" from by decide, hidx]
      rfl
  · intro heq hne hpre
    rw [hfin]
    exact zc_start ops hne hpre heq

/-- A single load then unload from the initial state is fully effective. -/
theorem c3_eff_lu :
    ops_effective c3_env "m" [Op.load, .unload] c3_state = true := by
  simp only [ops_effective, (c3_fresh_load c3_state rfl rfl).trans
    (rfl : (Except.ok c3_state.last_module_id, _) = (.ok 0, c3_s1))]
  decide

/-- C3 witness: the corrected symmetry at the sequence `[load, unload]`. -/
theorem c3_refcount_symmetry_witness :
    c3_inv c3_state 0 ∧
    ops_effective c3_env "m" [Op.load, .unload] c3_state = true ∧
    ((registered (run_ops c3_env "m" [Op.load, .unload] c3_state) "m" = true ↔
      ([Op.load, .unload] : List Op).count Op.unload <
        ([Op.load, .unload] : List Op).count Op.load) ∧
     (([Op.load, .unload] : List Op).count Op.load =
        ([Op.load, .unload] : List Op).count Op.unload →
      ([Op.load, .unload] : List Op) ≠ [] →
      (∀ k, 0 < k → k < ([Op.load, .unload] : List Op).length →
        (([Op.load, .unload] : List Op).take k).count Op.unload <
          (([Op.load, .unload] : List Op).take k).count Op.load) →
      fin_count c3_env "m" [Op.load, .unload] c3_state = 1)) :=
  ⟨⟨rfl, fun _ => rfl, fun h => absurd h (by decide)⟩, c3_eff_lu,
   c3_refcount_symmetry [Op.load, .unload] c3_state
     ⟨rfl, fun _ => rfl, fun h => absurd h (by decide)⟩ c3_eff_lu⟩

end BP3D
